import Mathlib

/-!
# create-node-app: `bin/createNodeApp.js`

A shallow embedding of the command-line script `bin/createNodeApp.js` and the
properties of its orchestration function `createApp`.

The script is sequential JavaScript over three libraries: the filesystem
(`fs-extra`), subprocesses (`child_process.execSync`) and the console.  The
embedding passes the filesystem explicitly, records every library call of the
script in a trace, and takes the behaviour of subprocesses as a parameter of
the environment (`World.exec`).

* Paths, the filesystem and the `fs` calls the script makes.
* JavaScript strings and numbers, `JSON.parse` and `JSON.stringify(v, null, 2)`.
* `semver.satisfies(v, '>=8.10.0')`.
* The steps of `createApp`, `createApp` itself, and the top-level script.
-/

set_option autoImplicit false
set_option maxRecDepth 100000

namespace CreateNodeApp

/-! ## Paths (`path.join`) -/

/-- An absolute, normalised POSIX path: the list of its segments below `/`. -/
abbrev Path := List String

/-- The text of a path, as it appears in messages and command lines. -/
def Path.render (p : Path) : String := "/" ++ "/".intercalate p

/-- Splits a character sequence at every `/`; `cur` is the segment read so far. -/
def splitSlash : List Char → List Char → List String
  | [], cur => [String.mk cur]
  | c :: cs, cur =>
    if c = '/' then String.mk cur :: splitSlash cs [] else splitSlash cs (cur ++ [c])

/-- One step of path normalisation: empty and `.` segments are dropped, `..`
removes the last segment (and is dropped at the root). -/
def pushSegment (acc : Path) (seg : String) : Path :=
  if seg = "" ∨ seg = "." then acc
  else if seg = ".." then acc.dropLast
  else acc ++ [seg]

/-- The path `path.join(base, name)` denotes, for a normalised absolute `base`. -/
def pathJoin (base : Path) (name : String) : Path :=
  (splitSlash name.data []).foldl pushSegment base

/-- The string `path.join(base, name)` returns: the normalised path, with the
trailing separator of `name` kept when the result is not the root. -/
def pathJoinText (base : Path) (name : String) : String :=
  let p := pathJoin base name
  if name.data.getLast? = some '/' ∧ p ≠ [] then p.render ++ "/" else p.render

/-- Whether `q` is `p` itself or lies below `p`. -/
def isUnder : Path → Path → Bool
  | [], _ => true
  | _ :: _, [] => false
  | a :: p, b :: q => decide (a = b) && isUnder p q

/-! ## The filesystem and the `fs` calls of the script -/

/-- What a path holds: a regular file with its content, or a directory. -/
inductive Node where
  | file (content : String)
  | dir
  deriving DecidableEq, Repr

/-- A filesystem: the entries below the root.  The root is always a directory. -/
abbrev FS := List (Path × Node)

/-- Errors the script can observe. -/
inductive Err where
  /-- The code `EEXIST`: the path already exists. -/
  | EEXIST (p : Path)
  /-- The code `ENOENT`: the path, or its parent, does not exist. -/
  | ENOENT (p : Path)
  /-- The code `ENOTDIR`: the parent of the path is not a directory. -/
  | ENOTDIR (p : Path)
  /-- The code `EISDIR`: the path is a directory where a file is needed. -/
  | EISDIR (p : Path)
  /-- The copy of `fs-extra` met a file where a directory is copied or the reverse,
  or was asked to copy a directory into itself. -/
  | copyRefused (src dst : Path)
  /-- The error `execSync` throws when the command exits with a non-zero status. -/
  | commandFailed (cmd : String) (status : Nat)
  /-- The `SyntaxError` of `JSON.parse`. -/
  | jsonSyntax (text : String)
  /-- The `TypeError` of setting a property of `null`. -/
  | nullProperty (key : String)
  /-- The `TypeError` of calling a function the runtime does not have. -/
  | notAFunction (name : String)
  deriving DecidableEq, Repr

/-- What is at path `p`, if anything. -/
def statSync (fs : FS) : Path → Option Node
  | [] => some .dir
  | p => (fs.find? (fun e => decide (e.1 = p))).map (·.2)

/-- The call `fs.mkdirSync(p)` (not recursive). -/
def mkdirSync (fs : FS) (p : Path) : Except Err FS :=
  match statSync fs p with
  | some _ => .error (.EEXIST p)
  | none =>
    match statSync fs p.dropLast with
    | none => .error (.ENOENT p)
    | some (.file _) => .error (.ENOTDIR p)
    | some .dir => .ok (fs ++ [(p, .dir)])

/-- The call `fs.rmSync(p, { recursive: true })` on a runtime that has it.  The
option `force` is not set, so a missing path is an error. -/
def rmSync (fs : FS) (p : Path) : Except Err FS :=
  match statSync fs p with
  | none => .error (.ENOENT p)
  | some _ => .ok (fs.filter (fun e => !isUnder p e.1))

/-- The call `fs.readFileSync(p)`. -/
def readFileSync (fs : FS) (p : Path) : Except Err String :=
  match statSync fs p with
  | none => .error (.ENOENT p)
  | some .dir => .error (.EISDIR p)
  | some (.file c) => .ok c

/-- The call `fs.writeFileSync(p, data)`. -/
def writeFileSync (fs : FS) (p : Path) (data : String) : Except Err FS :=
  match statSync fs p with
  | some .dir => .error (.EISDIR p)
  | some (.file _) => .ok (fs.map (fun e => if e.1 = p then (p, Node.file data) else e))
  | none =>
    match statSync fs p.dropLast with
    | none => .error (.ENOENT p)
    | some (.file _) => .error (.ENOTDIR p)
    | some .dir => .ok (fs ++ [(p, .file data)])

/-- The state of a copy: the filesystem so far and the error that stopped it. -/
structure CopyState where
  fs : FS
  thrown : Option Err
  deriving DecidableEq, Repr

/-- Copies one entry `e` found below `src` to its place below `dst`: a
directory is created unless present, a file replaces a file, and a file met
where a directory is copied (or the reverse) stops the copy. -/
def copyEntry (src dst : Path) (st : CopyState) (e : Path × Node) : CopyState :=
  match st.thrown with
  | some _ => st
  | none =>
    let target := dst ++ e.1.drop src.length
    match e.2, statSync st.fs target with
    | .dir, none => { st with fs := st.fs ++ [(target, .dir)] }
    | .dir, some .dir => st
    | .dir, some (.file _) => { st with thrown := some (.copyRefused e.1 target) }
    | .file _, some .dir => { st with thrown := some (.copyRefused e.1 target) }
    | .file c, some (.file _) =>
      { st with fs := st.fs.map (fun x => if x.1 = target then (target, Node.file c) else x) }
    | .file c, none => { st with fs := st.fs ++ [(target, .file c)] }

/-- The call `fs.copySync(src, dst)` of `fs-extra` with its default options
(existing files are overwritten).  Entries are copied in the order in which the
filesystem lists them; a destination that is missing is made, its parent being
taken to exist. -/
def copySync (fs : FS) (src dst : Path) : CopyState :=
  match statSync fs src with
  | none => { fs := fs, thrown := some (.ENOENT src) }
  | some (.file c) =>
    match statSync fs dst with
    | some .dir => { fs := fs, thrown := some (.copyRefused src dst) }
    | some (.file _) =>
      { fs := fs.map (fun x => if x.1 = dst then (dst, Node.file c) else x), thrown := none }
    | none => { fs := fs ++ [(dst, .file c)], thrown := none }
  | some .dir =>
    if isUnder src dst then { fs := fs, thrown := some (.copyRefused src dst) }
    else
      match statSync fs dst with
      | some (.file _) => { fs := fs, thrown := some (.copyRefused src dst) }
      | some .dir =>
        (fs.filter (fun e => isUnder src e.1 && decide (e.1 ≠ src))).foldl
          (copyEntry src dst) { fs := fs, thrown := none }
      | none =>
        (fs.filter (fun e => isUnder src e.1 && decide (e.1 ≠ src))).foldl
          (copyEntry src dst) { fs := fs ++ [(dst, .dir)], thrown := none }

/-- Whether the directory `p` has no entry below it. -/
def isEmptyDir (fs : FS) (p : Path) : Prop :=
  statSync fs p = some .dir ∧ ∀ e ∈ fs, isUnder p e.1 = true → e.1 = p


/-! ## JavaScript strings -/

/-- A JavaScript string: the list of its UTF-16 code units. -/
abbrev JsString := List Nat

/-- The code units of one character: one unit, or a surrogate pair above `U+FFFF`. -/
def charUnits (c : Char) : List Nat :=
  if c.toNat < 65536 then [c.toNat]
  else [55296 + (c.toNat - 65536) / 1024, 56320 + (c.toNat - 65536) % 1024]

/-- The JavaScript string of a text. -/
def toUnits (s : String) : JsString := s.data.flatMap charUnits

/-- Whether the unit is the first half of a surrogate pair. -/
def isHighSurrogate (u : Nat) : Bool := decide (55296 ≤ u ∧ u ≤ 56319)

/-- Whether the unit is the second half of a surrogate pair. -/
def isLowSurrogate (u : Nat) : Bool := decide (56320 ≤ u ∧ u ≤ 57343)

/-- The character a unit outside a pair is written as: itself, or `U+FFFD` for
a surrogate on its own. -/
def loneChar (u : Nat) : Char :=
  if isHighSurrogate u || isLowSurrogate u then Char.ofNat 65533 else Char.ofNat u

/-- The characters of a JavaScript string written out as UTF-8. -/
def unitsChars : List Nat → List Char
  | [] => []
  | [u] => [loneChar u]
  | u :: lo :: rest =>
    if isHighSurrogate u && isLowSurrogate lo then
      Char.ofNat (65536 + (u - 55296) * 1024 + (lo - 56320)) :: unitsChars rest
    else loneChar u :: unitsChars (lo :: rest)

/-- The text a JavaScript string is written to a file as. -/
def fromUnits (s : JsString) : String := String.mk (unitsChars s)

/-! ## Numbers: from a JSON number to the text `JSON.stringify` prints

A JSON number denotes a decimal fraction; `JSON.parse` rounds it to the nearest
double (ties to even), and `JSON.stringify` prints the shortest decimal that
reads back as the same double.  Both are computed here on exact fractions of
natural numbers. -/

/-- The quotient `n / d` rounded to the nearest integer, ties to the even one. -/
def roundHalfEven (n d : Nat) : Nat :=
  if 2 * (n % d) < d then n / d
  else if d < 2 * (n % d) then n / d + 1
  else if (n / d) % 2 = 0 then n / d else n / d + 1

/-- The number of binary digits of `n`, less one. -/
def log2Floor (n : Nat) : Nat := (Nat.toDigits 2 n).length - 1

/-- The fraction `(num / den) / 2^e`. -/
def scaled (num den : Nat) (e : Int) : Nat × Nat :=
  if 0 ≤ e then (num, den * 2 ^ e.toNat) else (num * 2 ^ (-e).toNat, den)

/-- The double nearest to `num / den`: `some (m, e)` stands for `m * 2^e` with
`m < 2^53` (and `2^52 ≤ m` unless `e = -1074`), `some (0, 0)` for zero, and
`none` for infinity. -/
def roundToDouble (num den : Nat) : Option (Nat × Int) :=
  if num = 0 then some (0, 0)
  else
    let l : Int := (log2Floor num : Int) - (log2Floor den : Int)
    let e0 : Int :=
      if 2 ^ 52 * (scaled num den (l - 52)).2 ≤ (scaled num den (l - 52)).1 then l - 52
      else l - 53
    let e1 : Int := if e0 < -1074 then -1074 else e0
    let m := roundHalfEven (scaled num den e1).1 (scaled num den e1).2
    let me : Nat × Int := if m = 2 ^ 53 then (2 ^ 52, e1 + 1) else (m, e1)
    if me.1 = 0 then some (0, 0)
    else if 971 < me.2 then none
    else some me

/-- The number a list of decimal digits denotes. -/
def digitsNat (ds : List Nat) : Nat := ds.foldl (fun acc d => 10 * acc + d) 0

/-- The decimal digits of a natural number, the most significant first. -/
def natDigits (n : Nat) : List Nat := (Nat.toDigits 10 n).map (fun c => c.toNat - 48)

/-- The fraction `(xn / xd) / 10^p`. -/
def shift10 (xn xd : Nat) (p : Int) : Nat × Nat :=
  if 0 ≤ p then (xn, xd * 10 ^ p.toNat) else (xn * 10 ^ (-p).toNat, xd)

/-- The fraction `s * 10^p`. -/
def decimalValue (s : Nat) (p : Int) : Nat × Nat :=
  if 0 ≤ p then (s * 10 ^ p.toNat, 1) else (s, 10 ^ (-p).toNat)

/-- The position `n` with `10^(n-1) ≤ xn / xd < 10^n`, for a fraction above zero. -/
def magnitude (xn xd : Nat) : Int :=
  if xd ≤ xn then ((natDigits (xn / xd)).length : Int)
  else if xn * 10 ^ ((natDigits (xd / xn)).length - 1) = xd then
    2 - ((natDigits (xd / xn)).length : Int)
  else 1 - ((natDigits (xd / xn)).length : Int)

/-- The digits without the zeros at their end. -/
def stripZeros (ds : List Nat) : List Nat := (ds.reverse.dropWhile (fun d => decide (d = 0))).reverse

/-- The shortest decimal that reads back as the double `m * 2^e = xn / xd`,
whose position is `n`: digit counts are tried from `k` up; with a given count
the two decimals next to the double are the candidates, and of two that read
back the nearer is taken (the even one on a tie).  The result is the digits and
the position of the decimal point. -/
def shortest (m : Nat) (e : Int) (xn xd : Nat) (n : Int) : Nat → Nat → Option (List Nat × Int)
  | 0, _ => none
  | fuel + 1, k =>
    let p : Int := n - k
    let sc := shift10 xn xd p
    let lo := sc.1 / sc.2
    let r := sc.1 % sc.2
    let okLo := decide (0 < lo) &&
      decide (roundToDouble (decimalValue lo p).1 (decimalValue lo p).2 = some (m, e))
    let okHi := decide (r ≠ 0) &&
      decide (roundToDouble (decimalValue (lo + 1) p).1 (decimalValue (lo + 1) p).2 = some (m, e))
    let pick : Option Nat :=
      if okLo && okHi then
        (if 2 * r < sc.2 then some lo
         else if sc.2 < 2 * r then some (lo + 1)
         else if lo % 2 = 0 then some lo else some (lo + 1))
      else if okLo then some lo
      else if okHi then some (lo + 1)
      else none
    match pick with
    | some s => some (stripZeros (natDigits s), p + (natDigits s).length)
    | none => shortest m e xn xd n fuel (k + 1)

/-- The text of a list of decimal digits. -/
def digitText (ds : List Nat) : String := String.mk (ds.map (fun d => Char.ofNat (48 + d)))

/-- A run of `n` zeros. -/
def zeros (n : Nat) : String := String.mk (List.replicate n '0')

/-- The text `Number::toString` gives the number `0.ds * 10^n`: plain digits up
to 21 places, a leading `0.` down to six zeros after the point, and the
exponent form otherwise. -/
def formatNumber (ds : List Nat) (n : Int) : String :=
  let k : Int := ds.length
  if k ≤ n ∧ n ≤ 21 then digitText ds ++ zeros (n - k).toNat
  else if 0 < n ∧ n ≤ 21 then digitText (ds.take n.toNat) ++ "." ++ digitText (ds.drop n.toNat)
  else if -6 < n ∧ n ≤ 0 then "0." ++ zeros (-n).toNat ++ digitText ds
  else
    (if ds.length = 1 then digitText ds
      else digitText (ds.take 1) ++ "." ++ digitText (ds.drop 1))
      ++ "e" ++ (if 0 ≤ n - 1 then "+" else "-") ++ toString (n - 1).natAbs

/-- The parts of a JSON number. -/
structure NumberParts where
  negative : Bool
  intDigits : List Nat
  fracDigits : List Nat
  expNegative : Bool
  expDigits : List Nat
  deriving DecidableEq, Repr

/-- The decimal digits at the head of a string, and the rest. -/
def takeDigits : List Nat → List Nat × List Nat
  | [] => ([], [])
  | u :: rest =>
    if 48 ≤ u ∧ u ≤ 57 then ((u - 48) :: (takeDigits rest).1, (takeDigits rest).2)
    else ([], u :: rest)

/-- The optional minus sign of a number. -/
def readSign (us : List Nat) : Bool × List Nat :=
  match us with
  | 45 :: rest => (true, rest)
  | _ => (false, us)

/-- The optional fraction of a number: a point and at least one digit. -/
def readFraction (us : List Nat) : Option (List Nat × List Nat) :=
  match us with
  | 46 :: rest => if (takeDigits rest).1 = [] then none else some (takeDigits rest)
  | _ => some ([], us)

/-- The optional exponent of a number: `e` or `E`, an optional sign and at
least one digit. -/
def readExponent (us : List Nat) : Option (Bool × List Nat × List Nat) :=
  match us with
  | [] => some (false, [], [])
  | u :: rest =>
    if u = 101 ∨ u = 69 then
      match rest with
      | 43 :: r => if (takeDigits r).1 = [] then none else some (false, takeDigits r)
      | 45 :: r => if (takeDigits r).1 = [] then none else some (true, takeDigits r)
      | _ => if (takeDigits rest).1 = [] then none else some (false, takeDigits rest)
    else some (false, [], u :: rest)

/-- The JSON number grammar: an optional minus, an integer part without a
leading zero (unless it is `0`), an optional fraction, an optional exponent,
and nothing after them. -/
def readNumber (us : List Nat) : Option NumberParts :=
  if (takeDigits (readSign us).2).1 = [] then none
  else if 1 < (takeDigits (readSign us).2).1.length
      ∧ (takeDigits (readSign us).2).1.head? = some 0 then none
  else
    match readFraction (takeDigits (readSign us).2).2 with
    | none => none
    | some f =>
      match readExponent f.2 with
      | none => none
      | some x =>
        if x.2.2 = [] then
          some { negative := (readSign us).1, intDigits := (takeDigits (readSign us).2).1,
                 fracDigits := f.1, expNegative := x.1, expDigits := x.2.1 }
        else none

/-- The text `JSON.stringify` prints for the number `JSON.parse` reads: `0` for
both zeros, `null` for a number beyond the doubles. -/
def numberText (l : NumberParts) : String :=
  let mant := digitsNat (l.intDigits ++ l.fracDigits)
  let len : Int := (l.intDigits ++ l.fracDigits).length
  let ex : Int :=
    (if l.expNegative then -(digitsNat l.expDigits : Int) else (digitsNat l.expDigits : Int))
      - (l.fracDigits.length : Int)
  if mant = 0 then "0"
  else if 310 < ex then "null"
  else if ex + len < -330 then "0"
  else
    match roundToDouble (decimalValue mant ex).1 (decimalValue mant ex).2 with
    | none => "null"
    | some (m, e) =>
      if m = 0 then "0"
      else
        match shortest m e (scaled m 1 (-e)).1 (scaled m 1 (-e)).2
            (magnitude (scaled m 1 (-e)).1 (scaled m 1 (-e)).2) 17 1 with
        | none => "null"
        | some (ds, pos) => (if l.negative then "-" else "") ++ formatNumber ds pos

/-! ## JSON values, `JSON.parse` and `JSON.stringify` -/

/-- A JSON value.  A number is carried as the text `JSON.stringify` prints for
it; the members of an object are an ordered list. -/
inductive Json where
  | null
  | bool (b : Bool)
  | num (text : String)
  | str (s : JsString)
  | arr (items : List Json)
  | obj (members : List (JsString × Json))

/-- A token of a JSON text. -/
inductive Token where
  | lbrace
  | rbrace
  | lbracket
  | rbracket
  | colon
  | comma
  | str (s : JsString)
  | num (text : String)
  | lit (b : Bool)
  | null
  deriving DecidableEq, Repr

/-- The value of a hexadecimal digit, of either case. -/
def hexValue (u : Nat) : Option Nat :=
  if 48 ≤ u ∧ u ≤ 57 then some (u - 48)
  else if 97 ≤ u ∧ u ≤ 102 then some (u - 87)
  else if 65 ≤ u ∧ u ≤ 70 then some (u - 55)
  else none

/-- The unit four hexadecimal digits denote. -/
def hex4 (a b c d : Nat) : Option Nat :=
  match hexValue a, hexValue b, hexValue c, hexValue d with
  | some x, some y, some z, some w => some (((x * 16 + y) * 16 + z) * 16 + w)
  | _, _, _, _ => none

/-- The unit a one-letter escape denotes: the quote, the backslash, the slash,
and `b`, `f`, `n`, `r`, `t`. -/
def simpleEscape (u : Nat) : Option Nat :=
  if u = 34 then some 34 else if u = 92 then some 92 else if u = 47 then some 47
  else if u = 98 then some 8 else if u = 102 then some 12 else if u = 110 then some 10
  else if u = 114 then some 13 else if u = 116 then some 9 else none

/-- The string the body of a string literal denotes, or `none` for an escape
that JSON does not have. -/
def unescape : List Nat → Option JsString
  | [] => some []
  | [u] => if u = 92 then none else some [u]
  | u :: e :: rest =>
    if u = 92 then
      if e = 117 then
        match rest with
        | a :: b :: c :: d :: rest4 =>
          match hex4 a b c d, unescape rest4 with
          | some n, some s => some (n :: s)
          | _, _ => none
        | _ => none
      else
        match simpleEscape e, unescape rest with
        | some n, some s => some (n :: s)
        | _, _ => none
    else (unescape (e :: rest)).map (fun s => u :: s)

/-- What the lexer is in the middle of: nothing, a word (a number or a literal
name), or a string literal whose last unit may be a backslash. -/
inductive LexMode where
  | idle
  | word (acc : List Nat)
  | string (acc : List Nat) (escaped : Bool)

/-- The state of the lexer: the tokens read and the mode. -/
structure LexState where
  tokens : List Token
  mode : LexMode

/-- The white space of JSON: space, tab, line feed, carriage return. -/
def isWhitespace (u : Nat) : Bool := decide (u = 32 ∨ u = 9 ∨ u = 10 ∨ u = 13)

/-- The token of a punctuation unit. -/
def punctuation (u : Nat) : Option Token :=
  if u = 123 then some .lbrace else if u = 125 then some .rbrace
  else if u = 91 then some .lbracket else if u = 93 then some .rbracket
  else if u = 58 then some .colon else if u = 44 then some .comma else none

/-- The token a word is: `true`, `false`, `null` or a number. -/
def wordToken (w : List Nat) : Option Token :=
  if w = toUnits "true" then some (.lit true)
  else if w = toUnits "false" then some (.lit false)
  else if w = toUnits "null" then some .null
  else (readNumber w).map (fun l => Token.num (numberText l))

/-- One unit read between two tokens. -/
def lexIdle (tokens : List Token) (u : Nat) : LexState :=
  if isWhitespace u then { tokens := tokens, mode := .idle }
  else if u = 34 then { tokens := tokens, mode := .string [] false }
  else
    match punctuation u with
    | some t => { tokens := tokens ++ [t], mode := .idle }
    | none => { tokens := tokens, mode := .word [u] }

/-- One unit read; `none` is a syntax error.  A word ends at white space, a
quote or punctuation; a string literal ends at a quote that no backslash
precedes, and holds no unit below `U+0020`. -/
def lexStep (st : Option LexState) (u : Nat) : Option LexState :=
  match st with
  | none => none
  | some s =>
    match s.mode with
    | .idle => some (lexIdle s.tokens u)
    | .word acc =>
      if isWhitespace u || decide (u = 34) || (punctuation u).isSome then
        (wordToken acc).map (fun t => lexIdle (s.tokens ++ [t]) u)
      else some { tokens := s.tokens, mode := .word (acc ++ [u]) }
    | .string acc escaped =>
      if escaped then some { tokens := s.tokens, mode := .string (acc ++ [u]) false }
      else if u = 34 then
        (unescape acc).map (fun str => { tokens := s.tokens ++ [Token.str str], mode := .idle })
      else if u = 92 then some { tokens := s.tokens, mode := .string (acc ++ [u]) true }
      else if u < 32 then none
      else some { tokens := s.tokens, mode := .string (acc ++ [u]) false }

/-- The tokens of a JSON text. -/
def tokenize (text : JsString) : Option (List Token) :=
  match text.foldl lexStep (some { tokens := [], mode := .idle }) with
  | none => none
  | some s =>
    match s.mode with
    | .idle => some s.tokens
    | .word acc => (wordToken acc).map (fun t => s.tokens ++ [t])
    | .string _ _ => none

/-- An array or an object that is still open; an object may hold a key that
waits for its value. -/
inductive Frame where
  | arr (items : List Json)
  | obj (members : List (JsString × Json)) (key : Option JsString)

/-- What the grammar allows next. -/
inductive Expect where
  | value
  | valueOrClose
  | keyOrClose
  | key
  | colon
  | commaOrClose
  | done
  deriving DecidableEq, Repr

/-- The state of the parser: the open arrays and objects, the innermost first,
what may come next, and the document once it is complete. -/
structure ParseState where
  stack : List Frame
  expect : Expect
  result : Option Json

/-- A complete value goes where it belongs: it is the document, the next item
of the innermost array, or the value of the waiting key. -/
def place (stack : List Frame) (v : Json) : Option ParseState :=
  match stack with
  | [] => some { stack := [], expect := .done, result := some v }
  | .arr items :: rest =>
    some { stack := .arr (items ++ [v]) :: rest, expect := .commaOrClose, result := none }
  | .obj members (some k) :: rest =>
    some { stack := .obj (members ++ [(k, v)]) none :: rest, expect := .commaOrClose,
           result := none }
  | .obj _ none :: _ => none

/-- A token where a value starts. -/
def startValue (stack : List Frame) (t : Token) : Option ParseState :=
  match t with
  | .str s => place stack (.str s)
  | .num text => place stack (.num text)
  | .lit b => place stack (.bool b)
  | .null => place stack .null
  | .lbrace => some { stack := .obj [] none :: stack, expect := .keyOrClose, result := none }
  | .lbracket => some { stack := .arr [] :: stack, expect := .valueOrClose, result := none }
  | _ => none

/-- The innermost array is closed. -/
def closeArray (stack : List Frame) : Option ParseState :=
  match stack with
  | .arr items :: rest => place rest (.arr items)
  | _ => none

/-- The innermost object is closed. -/
def closeObject (stack : List Frame) : Option ParseState :=
  match stack with
  | .obj members none :: rest => place rest (.obj members)
  | _ => none

/-- A token where a key is due. -/
def takeKey (stack : List Frame) (t : Token) : Option ParseState :=
  match t, stack with
  | .str k, .obj members none :: rest =>
    some { stack := .obj members (some k) :: rest, expect := .colon, result := none }
  | _, _ => none

/-- One token read; `none` is a syntax error. -/
def parseStep (st : Option ParseState) (t : Token) : Option ParseState :=
  match st with
  | none => none
  | some s =>
    match s.expect with
    | .value => startValue s.stack t
    | .valueOrClose => if t = .rbracket then closeArray s.stack else startValue s.stack t
    | .keyOrClose => if t = .rbrace then closeObject s.stack else takeKey s.stack t
    | .key => takeKey s.stack t
    | .colon => if t = .colon then some { s with expect := .value } else none
    | .commaOrClose =>
      if t = .comma then
        match s.stack with
        | .arr _ :: _ => some { s with expect := .value }
        | .obj _ _ :: _ => some { s with expect := .key }
        | [] => none
      else if t = .rbracket then closeArray s.stack
      else if t = .rbrace then closeObject s.stack
      else none
    | .done => none

/-- The document a list of tokens denotes: exactly one value. -/
def parseTokens (ts : List Token) : Option Json :=
  match ts.foldl parseStep (some { stack := [], expect := .value, result := none }) with
  | none => none
  | some s => if s.expect = .done then s.result else none

/-- The document a JSON text denotes, the members of each object in the order
of the text, or `none` for a text that is not JSON. -/
def parseDocument (text : String) : Option Json :=
  (tokenize (toUnits text)).bind parseTokens

/-- Reads a sequence of decimal digits. -/
def readDigits : List Nat → Nat → Option Nat
  | [], acc => some acc
  | u :: us, acc =>
    if 48 ≤ u ∧ u ≤ 57 then readDigits us (10 * acc + (u - 48)) else none

/-- The array index a property key denotes, if it is one: the canonical decimal
text of a number below `2^32 - 1`. -/
def arrayIndex? (k : JsString) : Option Nat :=
  match k with
  | [] => none
  | u :: us =>
    if u = 48 ∧ us ≠ [] then none
    else
      match readDigits (u :: us) 0 with
      | some n => if n < 4294967295 then some n else none
      | none => none

/-- Places a new array-index key among the properties of an object: after the
array-index keys smaller than it and before everything else. -/
def insertIndexed (i : Nat) (k : JsString) (v : Json) :
    List (JsString × Json) → List (JsString × Json)
  | [] => [(k, v)]
  | m :: rest =>
    match arrayIndex? m.1 with
    | some j => if j < i then m :: insertIndexed i k v rest else (k, v) :: m :: rest
    | none => (k, v) :: m :: rest

/-- Defines or updates the own property `k` of an ordinary object whose own
properties, in enumeration order, are `props`: an existing key keeps its place
and takes the new value; a new array-index key is placed in ascending numeric
order before the other keys; any other new key goes last. -/
def defineProperty (props : List (JsString × Json)) (k : JsString) (v : Json) :
    List (JsString × Json) :=
  if props.any (fun m => decide (m.1 = k)) then
    props.map (fun m => if m.1 = k then (k, v) else m)
  else
    match arrayIndex? k with
    | some i => insertIndexed i k v props
    | none => props ++ [(k, v)]

mutual
/-- The value `JSON.parse` builds from a document: every object is built by
defining its members one by one in document order. -/
def internalize : Json → Json
  | .null => .null
  | .bool b => .bool b
  | .num t => .num t
  | .str s => .str s
  | .arr items => .arr (internalizeItems items)
  | .obj members =>
    .obj ((internalizeMembers members).foldl (fun props m => defineProperty props m.1 m.2) [])
/-- The items of an array, each internalised. -/
def internalizeItems : List Json → List Json
  | [] => []
  | x :: xs => internalize x :: internalizeItems xs
/-- The members of an object in document order, each value internalised. -/
def internalizeMembers : List (JsString × Json) → List (JsString × Json)
  | [] => []
  | (k, v) :: ms => (k, internalize v) :: internalizeMembers ms
end

/-- The call `JSON.parse(text)`. -/
def jsonParse (text : String) : Option Json := (parseDocument text).map internalize

/-- Whether the keys of one object are pairwise distinct and none of them an
array index. -/
def keysPlain (ks : List JsString) : Bool :=
  decide ks.Nodup && ks.all (fun k => (arrayIndex? k).isNone)

mutual
/-- Whether no object of the document, at any depth, has a key that is an
array index or a key that occurs twice. -/
def plainKeys : Json → Bool
  | .null => true
  | .bool _ => true
  | .num _ => true
  | .str _ => true
  | .arr items => plainItems items
  | .obj members => keysPlain (members.map (fun m => m.1)) && plainMembers members
/-- The same of every item of an array. -/
def plainItems : List Json → Bool
  | [] => true
  | x :: xs => plainKeys x && plainItems xs
/-- The same of every value of an object. -/
def plainMembers : List (JsString × Json) → Bool
  | [] => true
  | (_, v) :: ms => plainKeys v && plainMembers ms
end

/-- The assignment `value.name = appName` in non-strict code: it throws on
`null`, defines or updates the property of an object, and leaves what
`JSON.stringify` prints unchanged for an array (the property is not an element)
and for a number, string or boolean (the assignment is ignored). -/
def assignName (value : Json) (appName : String) : Except Err Json :=
  match value with
  | .null => .error (.nullProperty "name")
  | .obj props => .ok (.obj (defineProperty props (toUnits "name") (.str (toUnits appName))))
  | v => .ok v

/-- A hexadecimal digit, lower case, as a unit. -/
def hexDigit (n : Nat) : Nat := if n < 10 then 48 + n else 87 + n

/-- The escape of one unit inside a JSON string: the quote, the backslash and
the units below `U+0020` are escaped, and so is a surrogate on its own. -/
def escapeUnit (u : Nat) : List Nat :=
  if u = 34 then [92, 34]
  else if u = 92 then [92, 92]
  else if u = 8 then [92, 98]
  else if u = 12 then [92, 102]
  else if u = 10 then [92, 110]
  else if u = 13 then [92, 114]
  else if u = 9 then [92, 116]
  else if u < 32 ∨ isHighSurrogate u = true ∨ isLowSurrogate u = true then
    [92, 117, hexDigit (u / 4096), hexDigit (u / 256 % 16), hexDigit (u / 16 % 16),
      hexDigit (u % 16)]
  else [u]

/-- The body of the string literal of a string; a surrogate pair is kept. -/
def quoteBody : List Nat → List Nat
  | [] => []
  | [u] => escapeUnit u
  | u :: lo :: rest =>
    if isHighSurrogate u && isLowSurrogate lo then u :: lo :: quoteBody rest
    else escapeUnit u ++ quoteBody (lo :: rest)

/-- A string as a JSON string literal. -/
def quote (s : JsString) : JsString := [34] ++ quoteBody s ++ [34]

/-- The strings joined with `sep` between them. -/
def joinUnits (sep : JsString) : List JsString → JsString
  | [] => []
  | [x] => x
  | x :: y :: rest => x ++ sep ++ joinUnits sep (y :: rest)

mutual
/-- The string `JSON.stringify(v, null, 2)` prints for `v` at the current
indentation `indent`. -/
def stringifyAt (indent : JsString) : Json → JsString
  | .null => toUnits "null"
  | .bool true => toUnits "true"
  | .bool false => toUnits "false"
  | .num t => toUnits t
  | .str s => quote s
  | .arr [] => [91, 93]
  | .arr (x :: xs) =>
    [91, 10] ++ indent ++ [32, 32]
      ++ joinUnits ([44, 10] ++ indent ++ [32, 32]) (stringifyItems (indent ++ [32, 32]) (x :: xs))
      ++ [10] ++ indent ++ [93]
  | .obj [] => [123, 125]
  | .obj (m :: ms) =>
    [123, 10] ++ indent ++ [32, 32]
      ++ joinUnits ([44, 10] ++ indent ++ [32, 32])
          (stringifyMembers (indent ++ [32, 32]) (m :: ms))
      ++ [10] ++ indent ++ [125]
/-- The items of an array, each printed. -/
def stringifyItems (indent : JsString) : List Json → List JsString
  | [] => []
  | x :: xs => stringifyAt indent x :: stringifyItems indent xs
/-- The members of an object, each printed as `"key": value`. -/
def stringifyMembers (indent : JsString) : List (JsString × Json) → List JsString
  | [] => []
  | (k, v) :: ms => (quote k ++ [58, 32] ++ stringifyAt indent v) :: stringifyMembers indent ms
end

/-- The call `JSON.stringify(v, null, 2)`, as the text written to a file. -/
def stringify (v : Json) : String := fromUnits (stringifyAt [] v)

/-- The members of an object other than the member `k`, in order. -/
def withoutKey (k : JsString) (props : List (JsString × Json)) : List (JsString × Json) :=
  props.filter (fun m => decide (m.1 ≠ k))

/-- The value of the first member with key `k`. -/
def member? (k : JsString) (props : List (JsString × Json)) : Option Json :=
  (props.find? (fun m => decide (m.1 = k))).map (fun m => m.2)

/-- The members `ms` with the name field set to `appName`: the field keeps its
place when `ms` has it, and is added last otherwise. -/
def renamed (ms : List (JsString × Json)) (appName : String) : List (JsString × Json) :=
  if ms.any (fun m => decide (m.1 = toUnits "name")) then
    ms.map (fun m => if m.1 = toUnits "name" then (toUnits "name", Json.str (toUnits appName)) else m)
  else ms ++ [(toUnits "name", Json.str (toUnits appName))]

/-! ## `semver.satisfies(process.version, '>=8.10.0')` -/

/-- One identifier of a prerelease tag. -/
inductive PreId where
  | numeric (n : Nat)
  | alnum (s : String)
  deriving DecidableEq, Repr

/-- A semantic version; build metadata plays no part in comparisons. -/
structure SemVer where
  major : Nat
  minor : Nat
  patch : Nat
  prerelease : List PreId
  deriving DecidableEq, Repr

/-- The text of a prerelease identifier. -/
def PreId.render : PreId → String
  | .numeric n => toString n
  | .alnum s => s

/-- The text of `process.version` for a version. -/
def SemVer.render (v : SemVer) : String :=
  "v" ++ toString v.major ++ "." ++ toString v.minor ++ "." ++ toString v.patch
    ++ (if v.prerelease = [] then "" else "-" ++ ".".intercalate (v.prerelease.map PreId.render))

/-- The order of two prerelease identifiers: numeric ones by value and below
the others, the others as text. -/
def compareIdentifiers : PreId → PreId → Ordering
  | .numeric a, .numeric b => compare a b
  | .numeric _, .alnum _ => .lt
  | .alnum _, .numeric _ => .gt
  | .alnum a, .alnum b => if a = b then .eq else if a < b then .lt else .gt

/-- The order of two non-empty prerelease tags, identifier by identifier; a
tag that is a proper beginning of the other is the smaller. -/
def compareTags : List PreId → List PreId → Ordering
  | [], [] => .eq
  | [], _ :: _ => .lt
  | _ :: _, [] => .gt
  | a :: as, b :: bs =>
    match compareIdentifiers a b with
    | .eq => compareTags as bs
    | o => o

/-- The order of the prerelease parts: a version with a tag comes before the
same version without one. -/
def comparePre (a b : SemVer) : Ordering :=
  match a.prerelease, b.prerelease with
  | [], [] => .eq
  | _ :: _, [] => .lt
  | [], _ :: _ => .gt
  | x :: xs, y :: ys => compareTags (x :: xs) (y :: ys)

/-- The order of the `major.minor.patch` parts. -/
def compareMain (a b : SemVer) : Ordering :=
  (compare a.major b.major).then ((compare a.minor b.minor).then (compare a.patch b.patch))

/-- The order `semver.compare`. -/
def SemVer.compare (a b : SemVer) : Ordering :=
  (compareMain a b).then (comparePre a b)

/-- Whether `a` comes strictly before `b` in precedence. -/
def SemVer.below (a b : SemVer) : Prop := a.compare b = .lt

instance (a b : SemVer) : Decidable (a.below b) := by
  unfold SemVer.below; infer_instance

/-- The call `semver.satisfies(v, '>=' + min)` with default options: `v` must
not come before `min`, and a version with a prerelease tag is accepted only
when `min` has a tag too and the same `major.minor.patch`. -/
def satisfiesAtLeast (v min : SemVer) : Bool :=
  decide (v.compare min ≠ .lt) &&
    (decide (v.prerelease = []) ||
      (decide (min.prerelease ≠ []) &&
        decide (v.major = min.major ∧ v.minor = min.minor ∧ v.patch = min.patch)))

/-- The range of the script: `8.10.0`. -/
def minimumVersion : SemVer := { major := 8, minor := 10, patch := 0, prerelease := [] }

/-- The first version of the runtime that has `fs.rmSync`: 14.14.0. -/
def rmSyncVersion : SemVer := { major := 14, minor := 14, patch := 0, prerelease := [] }

/-- Whether the runtime has `fs.rmSync`, which `fs-extra` passes through from
the `fs` of the runtime. -/
def providesRmSync (v : SemVer) : Bool := decide (compareMain v rmSyncVersion ≠ .lt)

/-- The exit code of `process.exit(1)`. -/
def failureCode : Nat := 1

/-! ## The environment, effects and runs -/

/-- What a subprocess leaves behind: the filesystem and its exit status. -/
structure ExecResult where
  fs : FS
  status : Nat

/-- The environment of one invocation of the script. -/
structure World where
  /-- The field `name` of the tool's own `package.json` (`program.name()`). -/
  packageName : String
  /-- The identifiers the name validator reserves besides the tool's own name. -/
  reservedNames : List String
  /-- What the name validator prints for a name it rejects. -/
  guidance : String → List String
  /-- Whether the environment prober finds the lockfile of the alternate
  package manager. -/
  lockfile : Bool
  /-- Whether the version probe of the alternate package manager's binary
  succeeds. -/
  binaryAnswers : Bool
  /-- The directory `process.cwd()`. -/
  cwd : Path
  /-- The directory in which the tool is installed (`path.join(__dirname, '..')`). -/
  ownPath : Path
  /-- The version of the host runtime (`process.version`). -/
  version : SemVer
  /-- The behaviour of `execSync(cmd, { cwd })` on a filesystem: what the
  command does to the filesystem and the status it exits with; a status other
  than zero stands for every way in which `execSync` throws. -/
  exec : String → Path → FS → ExecResult

/-- A call the script makes to the console, the filesystem or a subprocess. -/
inductive Effect where
  /-- The call `console.log(text)`; the text is taken without the colour codes
  that `chalk` adds on a terminal, and `console.log()` prints the empty text. -/
  | stdout (text : String)
  /-- The call `console.error(text)`, the text again without colour codes. -/
  | stderr (text : String)
  /-- The call `console.error(e)` on a caught error. -/
  | logged (e : Err)
  /-- The environment prober looks for the lockfile of the alternate package
  manager. -/
  | probeLockfile
  /-- The environment prober runs the binary of the alternate package manager
  to ask for its version. -/
  | probeBinary
  /-- The call `fs.mkdirSync(p)`. -/
  | mkdir (p : Path)
  /-- The call `fs.rmSync(p, { recursive: true })`. -/
  | rm (p : Path)
  /-- The call `execSync(cmd, { cwd, stdio: 'inherit' })`. -/
  | exec (cmd : String) (cwd : Path)
  /-- The call `fs.copySync(src, dst)`. -/
  | copy (src dst : Path)
  /-- The call `fs.readFileSync(p)`. -/
  | readFile (p : Path)
  /-- The call `fs.writeFileSync(p, data)`. -/
  | writeFile (p : Path) (data : String)
  deriving DecidableEq, Repr

/-- Whether the effect is console output. -/
def Effect.isConsole : Effect → Bool
  | .stdout _ => true
  | .stderr _ => true
  | .logged _ => true
  | _ => false

/-- Whether the effect starts a subprocess. -/
def Effect.isSubprocess : Effect → Bool
  | .exec _ _ => true
  | .probeBinary => true
  | _ => false

/-- How `createApp` ends. -/
inductive Outcome where
  /-- The script called `process.exit(code)`. -/
  | exited (code : Nat)
  /-- An error left `createApp`: the promise it returned is rejected. -/
  | rejected (e : Err)
  /-- The function ran to its end: the promise is resolved. -/
  | resolved
  deriving DecidableEq, Repr

/-- One run: the calls made, in order, the filesystem left behind, the outcome. -/
structure Run where
  trace : List Effect
  fs : FS
  outcome : Outcome
  deriving DecidableEq, Repr

/-- One step of the pipeline: the calls made, the filesystem left behind, and
the error thrown out of the step, if any. -/
structure Step where
  trace : List Effect
  fs : FS
  thrown : Option Err
  deriving DecidableEq, Repr

/-- The run `r` preceded by the calls `pre`. -/
def Run.after (pre : List Effect) (r : Run) : Run :=
  { r with trace := pre ++ r.trace }

/-- Sequencing: an error thrown by the step ends the run (nothing catches it);
otherwise the rest of the function runs on the filesystem the step left. -/
def Step.andThen (s : Step) (rest : FS → Run) : Run :=
  match s.thrown with
  | some e => { trace := s.trace, fs := s.fs, outcome := .rejected e }
  | none => (rest s.fs).after s.trace

/-- The exit code of the process for an outcome of `createApp`.  The script
attaches no handler to the promise `createApp` returns, so a rejection is an
unhandled rejection: by default the runtime ends with code 1 from version 15
on, and prints a warning and ends with code 0 before. -/
def processExitCode (W : World) : Outcome → Nat
  | .exited code => code
  | .resolved => 0
  | .rejected _ => if 15 ≤ W.version.major then 1 else 0

/-! ## The helpers of `src/util` -/

/-- Modelled from the spec: `checkAppName` of `src/util`, which is not among
the sources.  The name validator rejects a target name that collides with the
tool's own package name or with another reserved identifier; `true` means the
name passed. -/
def checkAppName (reserved : List String) (programName appName : String) : Bool :=
  !(decide (appName = programName) || decide (appName ∈ reserved))

/-- Modelled from the spec: `shouldUseYarn` of `src/util`, which is not among
the sources.  The environment prober chooses the alternate package manager when
its lockfile is present or the version probe of its binary succeeds, and the
baseline manager otherwise; it never fails. -/
def shouldUseYarn (W : World) : Bool := W.lockfile || W.binaryAnswers

/-- Modelled from the spec: the read-only probes `shouldUseYarn` makes, in the
order in which the spec names them: the lockfile, and the version probe of the
binary when no lockfile settles the answer. -/
def proberCalls (W : World) : List Effect :=
  if W.lockfile then [.probeLockfile] else [.probeLockfile, .probeBinary]

/-! ## The steps of `createApp` -/

/-- The text of a value interpolated into a string: `undefined` for an
argument that was not given. -/
def jsText : Option String → String
  | none => "undefined"
  | some s => s

/-- The constant `templatePath`: the scratch directory `src/template` of the tool. -/
def templatePath (W : World) : Path := W.ownPath ++ ["src", "template"]

/-- The constant `appPath`: `path.join(cwd, appName)`. -/
def appPath (W : World) (appName : String) : Path := pathJoin W.cwd appName

/-- The text of `appPath`, as interpolated into messages. -/
def appPathText (W : World) (appName : String) : String := pathJoinText W.cwd appName

/-- The constant `appPackageJsonPath`: `path.join(appPath, 'package.json')`. -/
def appPackageJsonPath (W : World) (appName : String) : Path :=
  appPath W appName ++ ["package.json"]

/-- The call `execSync(cmd, { cwd, stdio: 'inherit' })`: it throws when the
command exits with a status other than zero. -/
def execSync (W : World) (cmd : String) (cwd : Path) (fs : FS) : Step :=
  { trace := [.exec cmd cwd]
    fs := (W.exec cmd cwd fs).fs
    thrown :=
      if (W.exec cmd cwd fs).status = 0 then none
      else some (.commandFailed cmd (W.exec cmd cwd fs).status) }

/-- Lines 79-80: the scratch directory is removed and made again.  On a
runtime without `fs.rmSync` line 79 throws a `TypeError` before any call. -/
def resetScratch (W : World) (fs : FS) : Step :=
  if providesRmSync W.version = false then
    { trace := [], fs := fs, thrown := some (.notAFunction "fs.rmSync") }
  else
    match rmSync fs (templatePath W) with
    | .error e => { trace := [.rm (templatePath W)], fs := fs, thrown := some e }
    | .ok fs1 =>
      match mkdirSync fs1 (templatePath W) with
      | .error e =>
        { trace := [.rm (templatePath W), .mkdir (templatePath W)], fs := fs1, thrown := some e }
      | .ok fs2 =>
        { trace := [.rm (templatePath W), .mkdir (templatePath W)], fs := fs2, thrown := none }

/-- The command of line 81. -/
def cloneCommand (W : World) (gitPath : Option String) : String :=
  "git clone " ++ jsText gitPath ++ " " ++ (templatePath W).render

/-- Lines 81-84: the template is cloned into the scratch directory. -/
def cloneTemplate (W : World) (appName : String) (gitPath : Option String) (fs : FS) : Step :=
  execSync W (cloneCommand W gitPath) (appPath W appName) fs

/-- Line 86: the scratch directory is copied into the target directory. -/
def copyTemplate (W : World) (appName : String) (fs : FS) : Step :=
  { trace := [.copy (templatePath W) (appPath W appName)]
    fs := (copySync fs (templatePath W) (appPath W appName)).fs
    thrown := (copySync fs (templatePath W) (appPath W appName)).thrown }

/-- Lines 88-95: the manifest is read, parsed, given the new name and written
back; whatever is thrown on the way is caught and logged. -/
def rewriteManifest (W : World) (appName : String) (fs : FS) : Step :=
  let p := appPackageJsonPath W appName
  match readFileSync fs p with
  | .error e => { trace := [.readFile p, .logged e], fs := fs, thrown := none }
  | .ok text =>
    match jsonParse text with
    | none => { trace := [.readFile p, .logged (.jsonSyntax text)], fs := fs, thrown := none }
    | some value =>
      match assignName value appName with
      | .error e => { trace := [.readFile p, .logged e], fs := fs, thrown := none }
      | .ok v =>
        match writeFileSync fs p (stringify v) with
        | .error e =>
          { trace := [.readFile p, .writeFile p (stringify v), .logged e], fs := fs,
            thrown := none }
        | .ok fs1 =>
          { trace := [.readFile p, .writeFile p (stringify v)], fs := fs1, thrown := none }

/-- The command of line 99. -/
def installCommand (W : World) : String :=
  (if shouldUseYarn W then "yarnpkg" else "npm") ++ " install"

/-- The message of line 98. -/
def installingMessage : String := "Installing packages. This might take a couple of minutes.\n"

/-- Lines 97-102: the dependencies are installed in the target directory. -/
def installDependencies (W : World) (appName : String) (fs : FS) : Step :=
  { trace := .stdout installingMessage :: (execSync W (installCommand W) (appPath W appName) fs).trace
    fs := (execSync W (installCommand W) (appPath W appName) fs).fs
    thrown := (execSync W (installCommand W) (appPath W appName) fs).thrown }

/-- The command of line 107. -/
def removeGitCommand : String := "rm -rf .git"

/-- The command of line 111. -/
def gitInitCommand : String := "git init && git add . && git commit -m \"initial commit\""

/-- Lines 104-117: the version-control metadata is removed and a fresh
repository is made; whatever is thrown on the way is caught and logged. -/
def reinitRepository (W : World) (appName : String) (fs : FS) : Step :=
  let s1 := execSync W removeGitCommand (appPath W appName) fs
  match s1.thrown with
  | some e => { trace := s1.trace ++ [.logged e], fs := s1.fs, thrown := none }
  | none =>
    let s2 := execSync W gitInitCommand (appPath W appName) s1.fs
    match s2.thrown with
    | some e => { trace := s1.trace ++ s2.trace ++ [.logged e], fs := s2.fs, thrown := none }
    | none => { trace := s1.trace ++ s2.trace, fs := s2.fs, thrown := none }

/-- The constant `displayedCommand`. -/
def displayedCommand (W : World) : String := if shouldUseYarn W then "yarn" else "npm"

/-- The constant `displayedCommandRun`. -/
def displayedCommandRun (W : World) : String :=
  displayedCommand W ++ (if shouldUseYarn W then "" else " run")

/-- Lines 122-153: the lines of the success summary (`readmeExists` is the
constant `false`, so its two lines are never printed). -/
def successSummary (W : World) (appName : String) : List String :=
  [ "",
    "Success! Created " ++ appName ++ " at " ++ appPathText W appName,
    "Inside that directory, you can run several commands:",
    "",
    "  " ++ displayedCommand W ++ " dev",
    "    Starts the App development servers.",
    "",
    "  " ++ displayedCommandRun W ++ " build",
    "    Containerizes and build the app.",
    "",
    "  " ++ displayedCommand W ++ " test",
    "    Starts the test runner.",
    "",
    "  " ++ displayedCommandRun W ++ " eject-www",
    "    Removes the Create React App tools and copies build dependencies,",
    "    configuration files and scripts into the app directory. If you do",
    "    this, you can’t go back!",
    "",
    "We suggest that you begin by typing:",
    "",
    "  cd " ++ appName,
    "  " ++ displayedCommand W ++ " start",
    "",
    "check docs: https://g22h5luj8j.feishu.cn/wiki/QzpLwW2Gtint80kV3fjcneqLnWb",
    "",
    "Happy hacking!" ]

/-- Lines 119-153: the summary is printed and `createApp` returns. -/
def printSummary (W : World) (appName : String) (fs : FS) : Run :=
  { trace := (successSummary W appName).map Effect.stdout, fs := fs, outcome := .resolved }

/-! ## `createApp` and the script -/

/-- Lines 104-153 of `createApp`. -/
def fromReinit (W : World) (appName : String) (fs : FS) : Run :=
  (reinitRepository W appName fs).andThen (printSummary W appName)

/-- Lines 97-153 of `createApp`. -/
def fromInstall (W : World) (appName : String) (fs : FS) : Run :=
  (installDependencies W appName fs).andThen (fromReinit W appName)

/-- Lines 88-153 of `createApp`. -/
def fromManifest (W : World) (appName : String) (fs : FS) : Run :=
  (rewriteManifest W appName fs).andThen (fromInstall W appName)

/-- Lines 86-153 of `createApp`. -/
def fromCopy (W : World) (appName : String) (fs : FS) : Run :=
  (copyTemplate W appName fs).andThen (fromManifest W appName)

/-- Lines 81-153 of `createApp`. -/
def fromClone (W : World) (appName : String) (gitPath : Option String) (fs : FS) : Run :=
  (cloneTemplate W appName gitPath fs).andThen (fromCopy W appName)

/-- Lines 79-153 of `createApp`. -/
def fromScratch (W : World) (appName : String) (gitPath : Option String) (fs : FS) : Run :=
  (resetScratch W fs).andThen (fromClone W appName gitPath)

/-- The message of line 54. -/
def templateMessage (gitPath : Option String) : String := "git项目模版： " ++ jsText gitPath

/-- The message of lines 62-64. -/
def existsMessage (W : World) (appName : String) : String :=
  "\n          Directory " ++ appPathText W appName
    ++ " already exists, refusing to overwrite.\n        "

/-- The calls of lines 51-58 in a run whose name passed the validator: the
probes of the environment prober, the message of line 54 and `mkdirSync`. -/
def openingCalls (W : World) (appName : String) (gitPath : Option String) : List Effect :=
  proberCalls W ++ [.stdout (templateMessage gitPath), .mkdir (appPath W appName)]

/-- The function `createApp(appName, gitPath, verbose)`; `gitPath` is `none`
when the command line gave no template, and `verbose` is not used.  The name
validator runs first and ends the process with code 1 on a name it rejects;
the environment prober runs next; the target directory is then made, and
`EEXIST` there ends the process with code 1 while any other error is thrown
again. -/
def createApp (W : World) (appName : String) (gitPath : Option String) (fs : FS) : Run :=
  if checkAppName W.reservedNames W.packageName appName = false then
    { trace := (W.guidance appName).map Effect.stderr, fs := fs, outcome := .exited failureCode }
  else
    match mkdirSync fs (appPath W appName) with
    | .error (.EEXIST _) =>
      { trace := openingCalls W appName gitPath ++ [.stderr (existsMessage W appName)]
        fs := fs
        outcome := .exited failureCode }
    | .error e =>
      { trace := openingCalls W appName gitPath
        fs := fs
        outcome := .rejected e }
    | .ok fs1 =>
      (fromScratch W appName gitPath fs1).after (openingCalls W appName gitPath)

/-- The message of lines 20-21. -/
def unsupportedMessage (v : SemVer) : String :=
  "You are using Node " ++ v.render ++ ", which is not supported by Create Node App.\n\n"
    ++ "Please update to Node 8.10 or higher.\n"

/-- The script, lines 16-47: the version check, then `createApp` on the two
arguments of the command line. -/
def script (W : World) (appName : String) (gitPath : Option String) (fs : FS) : Run :=
  if satisfiesAtLeast W.version minimumVersion then createApp W appName gitPath fs
  else { trace := [.stdout (unsupportedMessage W.version)], fs := fs, outcome := .exited failureCode }

/-! ## How far a run gets -/

/-- The calls made so far and the filesystem reached. -/
abbrev Progress := List Effect × FS

/-- One more step on top of the progress so far, when the step throws nothing. -/
def Progress.extend (prev : Option Progress) (step : FS → Step) : Option Progress :=
  match prev with
  | none => none
  | some (t, fs) =>
    match (step fs).thrown with
    | some _ => none
    | none => some (t ++ (step fs).trace, (step fs).fs)

/-- The run passes the name validator and makes the target directory. -/
def uptoTargetDir (W : World) (appName : String) (gitPath : Option String) (fs : FS) :
    Option Progress :=
  if checkAppName W.reservedNames W.packageName appName = false then none
  else
    match mkdirSync fs (appPath W appName) with
    | .error _ => none
    | .ok fs1 => some (openingCalls W appName gitPath, fs1)

/-- The run gets past the scratch directory (lines 79-80). -/
def uptoScratch (W : World) (appName : String) (gitPath : Option String) (fs : FS) :
    Option Progress :=
  Progress.extend (uptoTargetDir W appName gitPath fs) (resetScratch W)

/-- The run gets past the clone (lines 81-84). -/
def uptoClone (W : World) (appName : String) (gitPath : Option String) (fs : FS) :
    Option Progress :=
  Progress.extend (uptoScratch W appName gitPath fs) (cloneTemplate W appName gitPath)

/-- The run gets past the copy (line 86). -/
def uptoCopy (W : World) (appName : String) (gitPath : Option String) (fs : FS) :
    Option Progress :=
  Progress.extend (uptoClone W appName gitPath fs) (copyTemplate W appName)

/-- The run gets past the manifest (lines 88-95). -/
def uptoManifest (W : World) (appName : String) (gitPath : Option String) (fs : FS) :
    Option Progress :=
  Progress.extend (uptoCopy W appName gitPath fs) (rewriteManifest W appName)

/-- The run gets past the install (lines 97-102). -/
def uptoInstall (W : World) (appName : String) (gitPath : Option String) (fs : FS) :
    Option Progress :=
  Progress.extend (uptoManifest W appName gitPath fs) (installDependencies W appName)

/-! ## A concrete environment

A small machine on which the script can be run by evaluation: the tool is
installed in `/opt/tool`, the user works in `/home/dev`, and the template
repository holds a manifest and one source file. -/

/-- The address of the template repository of the example. -/
def sampleUrl : String := "https://example.org/template.git"

/-- A well-formed manifest. -/
def sampleManifest : String :=
  "\x7b\"name\":\"template\",\"version\":\"1.0.0\",\"port\":3000\x7d"

/-- A well-formed manifest without a name. -/
def namelessManifest : String :=
  "\x7b\"version\":\"1.0.0\",\"private\":true\x7d"

/-- A manifest with a key that is an array index after another key. -/
def indexedManifest : String := "\x7b\"b\":1,\"1\":2\x7d"

/-- A manifest in which a key occurs twice. -/
def repeatedManifest : String := "\x7b\"a\":1,\"b\":2,\"a\":3\x7d"

/-- A manifest whose array-index key lies in a nested object. -/
def nestedManifest : String := "\x7b\"x\":\x7b\"b\":1,\"1\":2\x7d\x7d"

/-- A manifest that is not JSON. -/
def brokenManifest : String := "name = template"

/-- The subprocesses of the example.  A command listed in `failing` exits
with status 1 and leaves the filesystem alone; the clone puts the template
(with the manifest `manifest`) into the scratch directory; the install adds
`node_modules`; `rm -rf .git` removes the repository of the working directory
and `git init` makes a new one. -/
def sampleExec (manifest : String) (failing : List String) (cmd : String) (cwd : Path)
    (fs : FS) : ExecResult :=
  if cmd ∈ failing then { fs := fs, status := 1 }
  else if cmd = "git clone https://example.org/template.git /opt/tool/src/template" then
    { fs := fs ++ [ (["opt", "tool", "src", "template", ".git"], .dir),
                    (["opt", "tool", "src", "template", "package.json"], .file manifest),
                    (["opt", "tool", "src", "template", "index.js"], .file "main()") ]
      status := 0 }
  else if cmd = "npm install" ∨ cmd = "yarnpkg install" then
    { fs := fs ++ [(cwd ++ ["node_modules"], .dir)], status := 0 }
  else if cmd = "rm -rf .git" then
    { fs := fs.filter (fun e => !isUnder (cwd ++ [".git"]) e.1), status := 0 }
  else if cmd = "git init && git add . && git commit -m \"initial commit\"" then
    { fs := fs ++ [(cwd ++ [".git"], .dir)], status := 0 }
  else { fs := fs, status := 127 }

/-- The environment of the example, for a manifest, a list of failing commands
and a runtime version; no lockfile is found and the version probe fails, so the
baseline package manager is chosen. -/
def sampleWorld (manifest : String) (failing : List String) (version : SemVer) : World :=
  { packageName := "create-node-app"
    reservedNames := []
    guidance := fun appName => ["Cannot create a project named " ++ appName]
    lockfile := false
    binaryAnswers := false
    cwd := ["home", "dev"]
    ownPath := ["opt", "tool"]
    version := version
    exec := sampleExec manifest failing }

/-- The environment of the example with the lockfile of the alternate package
manager in place. -/
def yarnWorld (manifest : String) (version : SemVer) : World :=
  { sampleWorld manifest [] version with lockfile := true }

/-- The environment of the example with an install that writes `node_modules`
and then exits with status 1. -/
def leakyWorld (manifest : String) (version : SemVer) : World :=
  { sampleWorld manifest [] version with
    exec := fun cmd cwd fs =>
      if cmd = "npm install" then { fs := fs ++ [(cwd ++ ["node_modules"], .dir)], status := 1 }
      else sampleExec manifest [] cmd cwd fs }

/-- The filesystem of the example before the first run: the scratch directory
holds a file left by an earlier run. -/
def sampleDisk : FS :=
  [ (["home"], .dir), (["home", "dev"], .dir),
    (["opt"], .dir), (["opt", "tool"], .dir), (["opt", "tool", "src"], .dir),
    (["opt", "tool", "src", "template"], .dir),
    (["opt", "tool", "src", "template", "stale.txt"], .file "old") ]

/-- The same machine without a scratch directory. -/
def bareDisk : FS :=
  [ (["home"], .dir), (["home", "dev"], .dir),
    (["opt"], .dir), (["opt", "tool"], .dir), (["opt", "tool", "src"], .dir) ]

/-- A current runtime. -/
def node18 : SemVer := { major := 18, minor := 0, patch := 0, prerelease := [] }

/-- A runtime of the 14 line that has `fs.rmSync`. -/
def node14 : SemVer := { major := 14, minor := 17, patch := 0, prerelease := [] }

/-- A runtime of the 12 line, which passes the version check of the script and
has no `fs.rmSync`. -/
def node12 : SemVer := { major := 12, minor := 22, patch := 0, prerelease := [] }

/-- A release candidate of version 9. -/
def node9rc : SemVer :=
  { major := 9, minor := 0, patch := 0, prerelease := [.alnum "rc", .numeric 1] }

/-- The members of `ms` with the member `m` put in at every place in turn. -/
def insertions (m : JsString × Json) (ms : List (JsString × Json)) :
    List (List (JsString × Json)) :=
  (List.range (ms.length + 1)).map (fun i => ms.take i ++ [m] ++ ms.drop i)

/-! ## Sequencing lemmas -/

@[simp]
theorem Run.after_trace (pre : List Effect) (r : Run) : (r.after pre).trace = pre ++ r.trace :=
  rfl

@[simp]
theorem Run.after_fs (pre : List Effect) (r : Run) : (r.after pre).fs = r.fs := rfl

@[simp]
theorem Run.after_outcome (pre : List Effect) (r : Run) : (r.after pre).outcome = r.outcome :=
  rfl

theorem Run.after_after (a b : List Effect) (r : Run) :
    (r.after b).after a = r.after (a ++ b) := by
  simp [Run.after, List.append_assoc]

theorem Step.andThen_none (s : Step) (rest : FS → Run) (h : s.thrown = none) :
    s.andThen rest = (rest s.fs).after s.trace := by
  simp [Step.andThen, h]

theorem Step.andThen_some (s : Step) (rest : FS → Run) (e : Err) (h : s.thrown = some e) :
    s.andThen rest = { trace := s.trace, fs := s.fs, outcome := .rejected e } := by
  simp [Step.andThen, h]

/-- Progress by one more step: a run that continues with the step and then
`rest` continues with `rest` once the step is known to have thrown nothing. -/
theorem Progress.extend_run (prev : Option Progress) (step : FS → Step) (rest : FS → Run)
    (R : Run)
    (hprev : ∀ t fs, prev = some (t, fs) → R = ((step fs).andThen rest).after t)
    (t : List Effect) (fs : FS) (h : Progress.extend prev step = some (t, fs)) :
    R = (rest fs).after t := by
  cases prev with
  | none => simp [Progress.extend] at h
  | some pr =>
    obtain ⟨t0, fs0⟩ := pr
    have hR := hprev t0 fs0 rfl
    cases hthrown : (step fs0).thrown with
    | some e => simp [Progress.extend, hthrown] at h
    | none =>
      simp only [Progress.extend, hthrown] at h
      injection h with h
      injection h with ht hfs
      subst ht; subst hfs
      rw [hR, Step.andThen_none _ _ hthrown, Run.after_after]

/-- What `Progress.extend` yields came from progress before the step. -/
theorem Progress.extend_some (prev : Option Progress) (step : FS → Step)
    (t : List Effect) (fs : FS) (h : Progress.extend prev step = some (t, fs)) :
    ∃ t0 fs0, prev = some (t0, fs0) ∧ (step fs0).thrown = none ∧
      t = t0 ++ (step fs0).trace ∧ fs = (step fs0).fs := by
  cases prev with
  | none => simp [Progress.extend] at h
  | some pr =>
    obtain ⟨t0, fs0⟩ := pr
    cases hthrown : (step fs0).thrown with
    | some e => simp [Progress.extend, hthrown] at h
    | none =>
      simp only [Progress.extend, hthrown] at h
      injection h with h
      injection h with ht hfs
      exact ⟨t0, fs0, rfl, hthrown, ht.symm, hfs.symm⟩

theorem Progress.extend_of (t0 : List Effect) (fs0 : FS) (step : FS → Step)
    (h : (step fs0).thrown = none) :
    Progress.extend (some (t0, fs0)) step = some (t0 ++ (step fs0).trace, (step fs0).fs) := by
  simp [Progress.extend, h]

/-! ## Runs that reach a step continue from it -/

theorem uptoTargetDir_some (W : World) (appName : String) (gitPath : Option String) (fs : FS)
    (t : List Effect) (fs1 : FS) (h : uptoTargetDir W appName gitPath fs = some (t, fs1)) :
    checkAppName W.reservedNames W.packageName appName = true ∧
      mkdirSync fs (appPath W appName) = .ok fs1 ∧
      t = proberCalls W ++ [.stdout (templateMessage gitPath), .mkdir (appPath W appName)] := by
  unfold uptoTargetDir at h
  cases hv : checkAppName W.reservedNames W.packageName appName with
  | false => simp [hv] at h
  | true =>
    cases hm : mkdirSync fs (appPath W appName) with
    | error e => simp [hv, hm] at h
    | ok fs0 =>
      simp only [hv, hm] at h
      simp at h
      exact ⟨rfl, by rw [h.2], h.1.symm⟩

theorem createApp_of_uptoTargetDir (W : World) (appName : String) (gitPath : Option String)
    (fs : FS) (t : List Effect) (fs1 : FS)
    (h : uptoTargetDir W appName gitPath fs = some (t, fs1)) :
    createApp W appName gitPath fs = (fromScratch W appName gitPath fs1).after t := by
  obtain ⟨hv, hm, ht⟩ := uptoTargetDir_some W appName gitPath fs t fs1 h
  simp [createApp, hv, hm, ht, openingCalls]

theorem createApp_of_uptoScratch (W : World) (appName : String) (gitPath : Option String)
    (fs : FS) (t : List Effect) (fs2 : FS)
    (h : uptoScratch W appName gitPath fs = some (t, fs2)) :
    createApp W appName gitPath fs = (fromClone W appName gitPath fs2).after t :=
  Progress.extend_run _ _ _ _
    (fun t0 fs0 h0 => createApp_of_uptoTargetDir W appName gitPath fs t0 fs0 h0) t fs2 h

theorem createApp_of_uptoClone (W : World) (appName : String) (gitPath : Option String)
    (fs : FS) (t : List Effect) (fs3 : FS)
    (h : uptoClone W appName gitPath fs = some (t, fs3)) :
    createApp W appName gitPath fs = (fromCopy W appName fs3).after t :=
  Progress.extend_run _ _ _ _
    (fun t0 fs0 h0 => createApp_of_uptoScratch W appName gitPath fs t0 fs0 h0) t fs3 h

theorem createApp_of_uptoCopy (W : World) (appName : String) (gitPath : Option String)
    (fs : FS) (t : List Effect) (fs4 : FS)
    (h : uptoCopy W appName gitPath fs = some (t, fs4)) :
    createApp W appName gitPath fs = (fromManifest W appName fs4).after t :=
  Progress.extend_run _ _ _ _
    (fun t0 fs0 h0 => createApp_of_uptoClone W appName gitPath fs t0 fs0 h0) t fs4 h

theorem createApp_of_uptoManifest (W : World) (appName : String) (gitPath : Option String)
    (fs : FS) (t : List Effect) (fs5 : FS)
    (h : uptoManifest W appName gitPath fs = some (t, fs5)) :
    createApp W appName gitPath fs = (fromInstall W appName fs5).after t :=
  Progress.extend_run _ _ _ _
    (fun t0 fs0 h0 => createApp_of_uptoCopy W appName gitPath fs t0 fs0 h0) t fs5 h

theorem createApp_of_uptoInstall (W : World) (appName : String) (gitPath : Option String)
    (fs : FS) (t : List Effect) (fs6 : FS)
    (h : uptoInstall W appName gitPath fs = some (t, fs6)) :
    createApp W appName gitPath fs = (fromReinit W appName fs6).after t :=
  Progress.extend_run _ _ _ _
    (fun t0 fs0 h0 => createApp_of_uptoManifest W appName gitPath fs t0 fs0 h0) t fs6 h

/-! ## The calls made before each step -/

theorem resetScratch_trace (W : World) (fs : FS) (h : (resetScratch W fs).thrown = none) :
    (resetScratch W fs).trace = [.rm (templatePath W), .mkdir (templatePath W)] ∧
      providesRmSync W.version = true := by
  unfold resetScratch at h ⊢
  cases hp : providesRmSync W.version with
  | false => simp [hp] at h
  | true =>
    simp only [hp] at h ⊢
    cases hr : rmSync fs (templatePath W) with
    | error e => simp [hr] at h
    | ok fs1 =>
      cases hm : mkdirSync fs1 (templatePath W) with
      | error e => simp [hr, hm] at h
      | ok fs2 => simp [hr, hm]

theorem uptoScratch_trace (W : World) (appName : String) (gitPath : Option String) (fs : FS)
    (t : List Effect) (fs2 : FS) (h : uptoScratch W appName gitPath fs = some (t, fs2)) :
    t = proberCalls W ++ [.stdout (templateMessage gitPath), .mkdir (appPath W appName),
         .rm (templatePath W), .mkdir (templatePath W)] := by
  obtain ⟨t0, fs0, h0, hthrown, ht, -⟩ := Progress.extend_some _ _ t fs2 h
  obtain ⟨-, -, ht0⟩ := uptoTargetDir_some W appName gitPath fs t0 fs0 h0
  rw [ht, ht0, (resetScratch_trace W fs0 hthrown).1]
  simp

theorem uptoClone_trace (W : World) (appName : String) (gitPath : Option String) (fs : FS)
    (t : List Effect) (fs3 : FS) (h : uptoClone W appName gitPath fs = some (t, fs3)) :
    t = proberCalls W ++ [.stdout (templateMessage gitPath), .mkdir (appPath W appName),
         .rm (templatePath W), .mkdir (templatePath W),
         .exec (cloneCommand W gitPath) (appPath W appName)] := by
  obtain ⟨t0, fs0, h0, -, ht, -⟩ := Progress.extend_some _ _ t fs3 h
  rw [ht, uptoScratch_trace W appName gitPath fs t0 fs0 h0]
  simp [cloneTemplate, execSync]

theorem uptoCopy_trace (W : World) (appName : String) (gitPath : Option String) (fs : FS)
    (t : List Effect) (fs4 : FS) (h : uptoCopy W appName gitPath fs = some (t, fs4)) :
    t = proberCalls W ++ [.stdout (templateMessage gitPath), .mkdir (appPath W appName),
         .rm (templatePath W), .mkdir (templatePath W),
         .exec (cloneCommand W gitPath) (appPath W appName),
         .copy (templatePath W) (appPath W appName)] := by
  obtain ⟨t0, fs0, h0, -, ht, -⟩ := Progress.extend_some _ _ t fs4 h
  rw [ht, uptoClone_trace W appName gitPath fs t0 fs0 h0]
  simp [copyTemplate]

theorem proberCalls_mem (W : World) (e : Effect) (he : e ∈ proberCalls W) :
    e = .probeLockfile ∨ e = .probeBinary := by
  unfold proberCalls at he
  cases hl : W.lockfile with
  | false =>
    simp only [hl] at he
    simp at he
    exact he
  | true =>
    simp only [hl] at he
    simp at he
    exact Or.inl he

/-- The manifest step never throws, and it only reads, writes and logs. -/
theorem rewriteManifest_calls (W : World) (appName : String) (fs : FS) :
    (rewriteManifest W appName fs).thrown = none ∧
      ∀ e ∈ (rewriteManifest W appName fs).trace, e.isSubprocess = false := by
  unfold rewriteManifest
  cases h1 : readFileSync fs (appPackageJsonPath W appName) with
  | error e => simp [h1, Effect.isSubprocess]
  | ok text =>
    cases h2 : jsonParse text with
    | none => simp [h1, h2, Effect.isSubprocess]
    | some doc =>
      cases h3 : assignName doc appName with
      | error e => simp [h1, h2, h3, Effect.isSubprocess]
      | ok v =>
        cases h4 : writeFileSync fs (appPackageJsonPath W appName) (stringify v) with
        | error e => simp [h1, h2, h3, h4, Effect.isSubprocess]
        | ok fs1 => simp [h1, h2, h3, h4, Effect.isSubprocess]

/-- Before the install, the only subprocesses a run has started are the
version probe of the prober and the clone. -/
theorem uptoManifest_subprocesses (W : World) (appName : String) (gitPath : Option String)
    (fs : FS) (t : List Effect) (fs5 : FS)
    (h : uptoManifest W appName gitPath fs = some (t, fs5)) :
    ∀ e ∈ t, e.isSubprocess = true →
      e = .probeBinary ∨ e = .exec (cloneCommand W gitPath) (appPath W appName) := by
  obtain ⟨t0, fs0, h0, -, ht, -⟩ := Progress.extend_some _ _ t fs5 h
  have ht0 := uptoCopy_trace W appName gitPath fs t0 fs0 h0
  intro e he hx
  rw [ht, List.mem_append] at he
  rcases he with he | he
  · rw [ht0, List.mem_append] at he
    rcases he with he | he
    · rcases proberCalls_mem W e he with rfl | rfl
      · simp [Effect.isSubprocess] at hx
      · exact Or.inl rfl
    · simp at he
      rcases he with rfl | rfl | rfl | rfl | rfl | rfl <;> simp_all [Effect.isSubprocess]
  · have := (rewriteManifest_calls W appName fs0).2 e he
    rw [this] at hx
    exact absurd hx (by simp)

/-! ## The target directory already exists (C1) -/

theorem mkdirSync_existing (fs : FS) (p : Path) (h : (statSync fs p).isSome = true) :
    mkdirSync fs p = .error (.EEXIST p) := by
  unfold mkdirSync
  cases hs : statSync fs p with
  | none => simp [hs] at h
  | some n => rfl

/-- C1 as amended: when the target directory already exists (`mkdirSync` fails
with `EEXIST`), `createApp` ends the process with exit code 1 and leaves the
whole filesystem as it was.  Its calls are, in order, the read-only probes of
the environment prober (the lockfile and, when there is none, the version probe
of the binary), the message of line 54, the refused `mkdirSync` and the message
of lines 62-64; a name the validator rejects ends the run before them.  So the
scratch directory is not removed, nothing is cloned, copied or written, and the
only subprocess that can run is the version probe of the prober.  Applied to
the filesystem a first run left, this is the second run of the tool with the
same name. -/
theorem createApp_existing_target (W : World) (appName : String) (gitPath : Option String)
    (fs : FS) (h : (statSync fs (appPath W appName)).isSome = true) :
    createApp W appName gitPath fs =
        (if checkAppName W.reservedNames W.packageName appName = false then
          { trace := (W.guidance appName).map Effect.stderr, fs := fs, outcome := .exited 1 }
        else
          { trace :=
              (if W.lockfile = true then [Effect.probeLockfile]
                else [Effect.probeLockfile, Effect.probeBinary])
              ++ [.stdout (templateMessage gitPath), .mkdir (appPath W appName),
                  .stderr (existsMessage W appName)]
            fs := fs
            outcome := .exited 1 }) ∧
      (createApp W appName gitPath fs).outcome = .exited 1 ∧
      processExitCode W (createApp W appName gitPath fs).outcome = 1 ∧
      (createApp W appName gitPath fs).fs = fs ∧
      ∀ e ∈ (createApp W appName gitPath fs).trace,
        e.isConsole = true ∨ e = Effect.probeLockfile ∨ e = Effect.probeBinary
          ∨ e = Effect.mkdir (appPath W appName) := by
  have hm := mkdirSync_existing fs (appPath W appName) h
  have hrun : createApp W appName gitPath fs =
      (if checkAppName W.reservedNames W.packageName appName = false then
        { trace := (W.guidance appName).map Effect.stderr, fs := fs, outcome := .exited 1 }
      else
        { trace :=
            (if W.lockfile = true then [Effect.probeLockfile]
              else [Effect.probeLockfile, Effect.probeBinary])
            ++ [.stdout (templateMessage gitPath), .mkdir (appPath W appName),
                .stderr (existsMessage W appName)]
          fs := fs
          outcome := .exited 1 }) := by
    cases hv : checkAppName W.reservedNames W.packageName appName with
    | false => simp [createApp, hv, failureCode]
    | true => simp [createApp, hv, hm, failureCode, openingCalls, proberCalls]
  refine ⟨hrun, ?_, ?_, ?_, ?_⟩
  · rw [hrun]; split <;> rfl
  · rw [hrun]; split <;> rfl
  · rw [hrun]; split <;> rfl
  · rw [hrun]
    cases hv : checkAppName W.reservedNames W.packageName appName with
    | false => simp [Effect.isConsole]
    | true =>
      cases hl : W.lockfile <;> simp [Effect.isConsole]

theorem createApp_existing_target_witness :
    (createApp (sampleWorld sampleManifest [] node18) "foo" (some sampleUrl) sampleDisk).outcome
        = .resolved ∧
      createApp (sampleWorld sampleManifest [] node18) "foo" (some sampleUrl)
          (createApp (sampleWorld sampleManifest [] node18) "foo" (some sampleUrl) sampleDisk).fs
        = { trace := [ .probeLockfile, .probeBinary,
                       .stdout "git项目模版： https://example.org/template.git",
                       .mkdir ["home", "dev", "foo"],
                       .stderr ("\n          Directory /home/dev/foo already exists, "
                         ++ "refusing to overwrite.\n        ") ]
            fs := (createApp (sampleWorld sampleManifest [] node18) "foo" (some sampleUrl)
              sampleDisk).fs
            outcome := .exited 1 } :=
  have h := createApp_existing_target (sampleWorld sampleManifest [] node18) "foo"
    (some sampleUrl)
    (createApp (sampleWorld sampleManifest [] node18) "foo" (some sampleUrl) sampleDisk).fs
    (by decide)
  ⟨by decide, h.1⟩

/-- C1 fails as stated: in the second run of the tool with the same name the
target directory exists, and before `mkdirSync` is refused the environment
prober, finding no lockfile, runs the binary of the alternate package manager
to ask for its version: a subprocess is started. -/
theorem existing_target_probes_binary :
    statSync (createApp (sampleWorld sampleManifest [] node18) "foo" (some sampleUrl)
        sampleDisk).fs ["home", "dev", "foo"] = some .dir ∧
      (createApp (sampleWorld sampleManifest [] node18) "foo" (some sampleUrl)
          (createApp (sampleWorld sampleManifest [] node18) "foo" (some sampleUrl)
            sampleDisk).fs).trace.take 4
        = [ .probeLockfile, .probeBinary,
            .stdout "git项目模版： https://example.org/template.git",
            .mkdir ["home", "dev", "foo"] ] ∧
      (createApp (sampleWorld sampleManifest [] node18) "foo" (some sampleUrl)
          (createApp (sampleWorld sampleManifest [] node18) "foo" (some sampleUrl)
            sampleDisk).fs).trace.filter Effect.isSubprocess
        = [.probeBinary] := by
  refine ⟨?_, ?_, ?_⟩ <;> decide

/-! ## The name validator rejects the name (C6) -/

/-- C6: when the name validator rejects the target name, as it does for the
tool's own package name, `createApp` ends the process with exit code 1 after
the validator's guidance and nothing else: the filesystem is as it was, no
target directory is made, the scratch directory is not touched and no
subprocess is run. -/
theorem createApp_rejected_name (W : World) (appName : String) (gitPath : Option String)
    (fs : FS) (h : checkAppName W.reservedNames W.packageName appName = false) :
    createApp W appName gitPath fs
        = { trace := (W.guidance appName).map Effect.stderr, fs := fs, outcome := .exited 1 } ∧
      (∀ e ∈ (createApp W appName gitPath fs).trace, e.isConsole = true) ∧
      checkAppName W.reservedNames W.packageName W.packageName = false ∧
      (createApp W W.packageName gitPath fs).fs = fs ∧
      (createApp W W.packageName gitPath fs).outcome = .exited 1 := by
  have hown : checkAppName W.reservedNames W.packageName W.packageName = false := by
    simp [checkAppName]
  refine ⟨?_, ?_, hown, ?_, ?_⟩
  · simp [createApp, h, failureCode]
  · simp [createApp, h, Effect.isConsole]
  · simp [createApp, hown]
  · simp [createApp, hown, failureCode]

theorem createApp_rejected_name_witness :
    checkAppName [] "create-node-app" "create-node-app" = false ∧
      createApp (sampleWorld sampleManifest [] node18) "create-node-app" (some sampleUrl)
          sampleDisk
        = { trace := [.stderr "Cannot create a project named create-node-app"],
            fs := sampleDisk, outcome := .exited 1 } :=
  ⟨by decide,
    (createApp_rejected_name (sampleWorld sampleManifest [] node18) "create-node-app"
      (some sampleUrl) sampleDisk (by decide)).1⟩

/-! ## The version check at startup (C9) -/

theorem satisfiesAtLeast_minimum (v : SemVer) :
    satisfiesAtLeast v minimumVersion = true ↔
      ¬ (v.below minimumVersion ∨ v.prerelease ≠ []) := by
  simp [satisfiesAtLeast, minimumVersion, SemVer.below]

/-- C9 as amended: the script refuses to proceed (it prints the guidance
message and ends with exit code 1, with no other effect) exactly when the
runtime version comes before 8.10.0 or carries a prerelease tag; for every
other version the check passes and the script goes on to `createApp`. -/
theorem script_version_check (W : World) (appName : String) (gitPath : Option String)
    (fs : FS) :
    script W appName gitPath fs =
      if W.version.below minimumVersion ∨ W.version.prerelease ≠ [] then
        { trace := [.stdout (unsupportedMessage W.version)], fs := fs, outcome := .exited 1 }
      else createApp W appName gitPath fs := by
  unfold script
  by_cases h : W.version.below minimumVersion ∨ W.version.prerelease ≠ []
  · have hs : satisfiesAtLeast W.version minimumVersion = false := by
      cases hb : satisfiesAtLeast W.version minimumVersion with
      | false => rfl
      | true => exact absurd h ((satisfiesAtLeast_minimum W.version).1 hb)
    rw [if_pos h]
    simp [hs, failureCode]
  · have hs : satisfiesAtLeast W.version minimumVersion = true :=
      (satisfiesAtLeast_minimum W.version).2 h
    rw [if_neg h]
    simp [hs]

/-- C9 fails as stated: the release candidate 9.0.0-rc.1 does not come before
8.10.0, and the script refuses it all the same. -/
theorem script_refuses_release_candidate :
    ¬ node9rc.below minimumVersion ∧
      script (sampleWorld sampleManifest [] node9rc) "foo" (some sampleUrl) sampleDisk
        = { trace := [.stdout ("You are using Node v9.0.0-rc.1, which is not supported by "
                ++ "Create Node App.\n\nPlease update to Node 8.10 or higher.\n")],
            fs := sampleDisk, outcome := .exited 1 } := by
  constructor
  · decide
  · decide

/-! ## The clone fails (C5) -/

/-- A run that does not get past the scratch directory copies nothing. -/
theorem createApp_no_copy_before_clone (W : World) (appName : String)
    (gitPath : Option String) (fs : FS)
    (h : uptoScratch W appName gitPath fs = none) (src dst : Path) :
    Effect.copy src dst ∉ (createApp W appName gitPath fs).trace := by
  have hopen : Effect.copy src dst ∉ openingCalls W appName gitPath := by
    intro hc
    unfold openingCalls at hc
    rw [List.mem_append] at hc
    rcases hc with hc | hc
    · rcases proberCalls_mem W _ hc with h1 | h1 <;> cases h1
    · simp at hc
  unfold uptoScratch uptoTargetDir at h
  unfold createApp
  cases hv : checkAppName W.reservedNames W.packageName appName with
  | false => simp
  | true =>
    cases hm : mkdirSync fs (appPath W appName) with
    | error e =>
      cases e <;> simp [hopen]
    | ok fs1 =>
      simp only [hv, hm] at h
      cases hthrown : (resetScratch W fs1).thrown with
      | none => simp [Progress.extend, hthrown] at h
      | some e =>
        simp only [fromScratch, Step.andThen, hthrown]
        have htr : ∀ x ∈ (resetScratch W fs1).trace,
            x = .rm (templatePath W) ∨ x = .mkdir (templatePath W) := by
          unfold resetScratch
          cases hp : providesRmSync W.version with
          | false => simp
          | true =>
            cases h1 : rmSync fs1 (templatePath W) with
            | error e => simp [h1]
            | ok fs2 =>
              cases h2 : mkdirSync fs2 (templatePath W) with
              | error e => simp [h1, h2]
              | ok fs3 => simp [h1, h2]
        intro hc
        have hc2 : Effect.copy src dst ∈
            openingCalls W appName gitPath ++ (resetScratch W fs1).trace := by
          simpa [Run.after] using hc
        rw [List.mem_append] at hc2
        rcases hc2 with hc2 | hc2
        · exact hopen hc2
        · rcases htr _ hc2 with h1 | h1 <;> cases h1

/-- C5: when the clone subprocess exits with a status other than zero, the
error leaves `createApp` and the run ends there: the last call is the clone,
so the copy, the manifest rewrite, the install and the repository re-init are
never executed.  Equivalently, a run in which the copy is executed is a run in
which the clone exited with status 0. -/
theorem clone_failure_aborts (W : World) (appName : String) (gitPath : Option String)
    (fs : FS) :
    (∀ t fs2, uptoScratch W appName gitPath fs = some (t, fs2) →
        (W.exec (cloneCommand W gitPath) (appPath W appName) fs2).status ≠ 0 →
        createApp W appName gitPath fs =
          { trace := proberCalls W ++
                     [.stdout (templateMessage gitPath), .mkdir (appPath W appName),
                      .rm (templatePath W), .mkdir (templatePath W),
                      .exec (cloneCommand W gitPath) (appPath W appName)]
            fs := (W.exec (cloneCommand W gitPath) (appPath W appName) fs2).fs
            outcome := .rejected (.commandFailed (cloneCommand W gitPath)
              (W.exec (cloneCommand W gitPath) (appPath W appName) fs2).status) }) ∧
      (∀ src dst, Effect.copy src dst ∈ (createApp W appName gitPath fs).trace →
        ∃ t fs2, uptoScratch W appName gitPath fs = some (t, fs2) ∧
          (W.exec (cloneCommand W gitPath) (appPath W appName) fs2).status = 0) := by
  have key : ∀ t fs2, uptoScratch W appName gitPath fs = some (t, fs2) →
      (W.exec (cloneCommand W gitPath) (appPath W appName) fs2).status ≠ 0 →
      createApp W appName gitPath fs =
        { trace := proberCalls W ++
                   [.stdout (templateMessage gitPath), .mkdir (appPath W appName),
                    .rm (templatePath W), .mkdir (templatePath W),
                    .exec (cloneCommand W gitPath) (appPath W appName)]
          fs := (W.exec (cloneCommand W gitPath) (appPath W appName) fs2).fs
          outcome := .rejected (.commandFailed (cloneCommand W gitPath)
            (W.exec (cloneCommand W gitPath) (appPath W appName) fs2).status) } := by
    intro t fs2 h hs
    rw [createApp_of_uptoScratch W appName gitPath fs t fs2 h,
      uptoScratch_trace W appName gitPath fs t fs2 h]
    simp [fromClone, cloneTemplate, execSync, Step.andThen, hs, Run.after]
  refine ⟨key, ?_⟩
  intro src dst hc
  cases hu : uptoScratch W appName gitPath fs with
  | none => exact absurd hc (createApp_no_copy_before_clone W appName gitPath fs hu src dst)
  | some pr =>
    obtain ⟨t, fs2⟩ := pr
    refine ⟨t, fs2, rfl, ?_⟩
    by_contra hs
    rw [key t fs2 hu hs] at hc
    rw [List.mem_append] at hc
    rcases hc with hc | hc
    · rcases proberCalls_mem W _ hc with h1 | h1 <;> cases h1
    · simp at hc

theorem clone_failure_aborts_witness :
    createApp
        (sampleWorld sampleManifest
          ["git clone https://example.org/template.git /opt/tool/src/template"] node18)
        "foo" (some sampleUrl) sampleDisk =
      { trace := [.probeLockfile, .probeBinary,
                  .stdout "git项目模版： https://example.org/template.git",
                  .mkdir ["home", "dev", "foo"],
                  .rm ["opt", "tool", "src", "template"],
                  .mkdir ["opt", "tool", "src", "template"],
                  .exec "git clone https://example.org/template.git /opt/tool/src/template"
                    ["home", "dev", "foo"]]
        fs := [ (["home"], .dir), (["home", "dev"], .dir),
                (["opt"], .dir), (["opt", "tool"], .dir), (["opt", "tool", "src"], .dir),
                (["home", "dev", "foo"], .dir),
                (["opt", "tool", "src", "template"], .dir) ]
        outcome := .rejected (.commandFailed
          "git clone https://example.org/template.git /opt/tool/src/template" 1) } :=
  (clone_failure_aborts
      (sampleWorld sampleManifest
        ["git clone https://example.org/template.git /opt/tool/src/template"] node18)
      "foo" (some sampleUrl) sampleDisk).1 _ _ (by rfl) (by decide)

/-! ## The install fails (C4) -/

/-- C4 as amended: when the install subprocess exits with a status other than
zero, the error leaves `createApp` and the promise it returned is rejected; the
process then ends with the code the runtime gives an unhandled rejection, 1 from
version 15 on and 0 before.  The install is the last call of the run, so the
repository re-init is never executed and the summary is never printed, and the
only subprocesses started are the version probe of the prober, the clone and
the install.  Nothing is cleaned up: the filesystem is the one the failed
install left, which is the one the copy and the manifest rewrite produced when
the failed install wrote nothing. -/
theorem install_failure_rejects (W : World) (appName : String) (gitPath : Option String)
    (fs : FS) (t : List Effect) (fs5 : FS)
    (h : uptoManifest W appName gitPath fs = some (t, fs5))
    (hs : (W.exec (installCommand W) (appPath W appName) fs5).status ≠ 0) :
    createApp W appName gitPath fs =
        { trace := t ++ [.stdout installingMessage,
                         .exec (installCommand W) (appPath W appName)]
          fs := (W.exec (installCommand W) (appPath W appName) fs5).fs
          outcome := .rejected (.commandFailed (installCommand W)
            (W.exec (installCommand W) (appPath W appName) fs5).status) } ∧
      processExitCode W (createApp W appName gitPath fs).outcome
        = (if 15 ≤ W.version.major then 1 else 0) ∧
      (createApp W appName gitPath fs).trace.getLast?
        = some (.exec (installCommand W) (appPath W appName)) ∧
      (∀ e ∈ (createApp W appName gitPath fs).trace, e.isSubprocess = true →
        e = .probeBinary ∨ e = .exec (cloneCommand W gitPath) (appPath W appName) ∨
          e = .exec (installCommand W) (appPath W appName)) ∧
      ((W.exec (installCommand W) (appPath W appName) fs5).fs = fs5 →
        (createApp W appName gitPath fs).fs = fs5) := by
  have hrun : createApp W appName gitPath fs =
      { trace := t ++ [.stdout installingMessage,
                       .exec (installCommand W) (appPath W appName)]
        fs := (W.exec (installCommand W) (appPath W appName) fs5).fs
        outcome := .rejected (.commandFailed (installCommand W)
          (W.exec (installCommand W) (appPath W appName) fs5).status) } := by
    rw [createApp_of_uptoManifest W appName gitPath fs t fs5 h]
    simp [fromInstall, installDependencies, execSync, Step.andThen, hs, Run.after]
  refine ⟨hrun, ?_, ?_, ?_, ?_⟩
  · rw [hrun]; rfl
  · rw [hrun]; simp
  · rw [hrun]
    intro e he hx
    simp only [List.mem_append, List.mem_cons, List.mem_singleton, List.not_mem_nil,
      or_false] at he
    rcases he with he | rfl | rfl
    · rcases uptoManifest_subprocesses W appName gitPath fs t fs5 h e he hx with h1 | h1
      · exact Or.inl h1
      · exact Or.inr (Or.inl h1)
    · simp [Effect.isSubprocess] at hx
    · exact Or.inr (Or.inr rfl)
  · intro hsame
    rw [hrun]
    exact hsame

theorem install_failure_rejects_witness :
    createApp (sampleWorld sampleManifest ["npm install"] node18) "foo" (some sampleUrl)
        sampleDisk =
      { trace := [ .probeLockfile, .probeBinary,
                   .stdout "git项目模版： https://example.org/template.git",
                   .mkdir ["home", "dev", "foo"],
                   .rm ["opt", "tool", "src", "template"],
                   .mkdir ["opt", "tool", "src", "template"],
                   .exec "git clone https://example.org/template.git /opt/tool/src/template"
                     ["home", "dev", "foo"],
                   .copy ["opt", "tool", "src", "template"] ["home", "dev", "foo"],
                   .readFile ["home", "dev", "foo", "package.json"],
                   .writeFile ["home", "dev", "foo", "package.json"]
                     ("\x7b\n  \"name\": \"foo\",\n  \"version\": \"1.0.0\",\n"
                       ++ "  \"port\": 3000\n\x7d") ]
                 ++ [ .stdout "Installing packages. This might take a couple of minutes.\n",
                      .exec "npm install" ["home", "dev", "foo"] ]
        fs := [ (["home"], .dir), (["home", "dev"], .dir),
                (["opt"], .dir), (["opt", "tool"], .dir), (["opt", "tool", "src"], .dir),
                (["home", "dev", "foo"], .dir),
                (["opt", "tool", "src", "template"], .dir),
                (["opt", "tool", "src", "template", ".git"], .dir),
                (["opt", "tool", "src", "template", "package.json"],
                  .file "\x7b\"name\":\"template\",\"version\":\"1.0.0\",\"port\":3000\x7d"),
                (["opt", "tool", "src", "template", "index.js"], .file "main()"),
                (["home", "dev", "foo", ".git"], .dir),
                (["home", "dev", "foo", "package.json"],
                  .file ("\x7b\n  \"name\": \"foo\",\n  \"version\": \"1.0.0\",\n"
                    ++ "  \"port\": 3000\n\x7d")),
                (["home", "dev", "foo", "index.js"], .file "main()") ]
        outcome := .rejected (.commandFailed "npm install" 1) } ∧
      processExitCode (sampleWorld sampleManifest ["npm install"] node18)
        (createApp (sampleWorld sampleManifest ["npm install"] node18) "foo" (some sampleUrl)
          sampleDisk).outcome = 1 :=
  have h := install_failure_rejects (sampleWorld sampleManifest ["npm install"] node18)
    "foo" (some sampleUrl) sampleDisk _ _ (by rfl) (by decide)
  ⟨h.1, h.2.1⟩

/-- C4 fails as stated, twice.  On the runtime 14.17.0, which passes the
version check, a failed install rejects the promise of `createApp` and the
process ends with exit code 0.  And an install that writes `node_modules`
before it exits with status 1 leaves the target directory with a
`node_modules` that it did not have after the copy and the manifest rewrite. -/
theorem install_failure_exit_zero :
    (satisfiesAtLeast node14 minimumVersion = true ∧
      (script (sampleWorld sampleManifest ["npm install"] node14) "foo" (some sampleUrl)
        sampleDisk).outcome = .rejected (.commandFailed "npm install" 1) ∧
      processExitCode (sampleWorld sampleManifest ["npm install"] node14)
        (script (sampleWorld sampleManifest ["npm install"] node14) "foo" (some sampleUrl)
          sampleDisk).outcome = 0) ∧
    ((createApp (leakyWorld sampleManifest node18) "foo" (some sampleUrl) sampleDisk).outcome
        = .rejected (.commandFailed "npm install" 1) ∧
      (uptoManifest (leakyWorld sampleManifest node18) "foo" (some sampleUrl) sampleDisk).map
          (fun pr => statSync pr.2 ["home", "dev", "foo", "node_modules"]) = some none ∧
      statSync (createApp (leakyWorld sampleManifest node18) "foo" (some sampleUrl)
          sampleDisk).fs ["home", "dev", "foo", "node_modules"] = some .dir) := by
  refine ⟨⟨?_, ?_, ?_⟩, ?_, ?_, ?_⟩ <;> decide

/-! ## The repository re-init fails (C7) -/

/-- C7: when a command of the repository re-init step fails (the removal of
the version-control metadata, or `git init`, `git add` and `git commit`), the
error is caught and logged and the run goes on: the lines of the summary are
printed, `createApp` returns normally and the process ends with exit code 0. -/
theorem reinit_failure_not_fatal (W : World) (appName : String) (gitPath : Option String)
    (fs : FS) (t : List Effect) (fs6 : FS)
    (h : uptoInstall W appName gitPath fs = some (t, fs6))
    (hf : (W.exec removeGitCommand (appPath W appName) fs6).status ≠ 0 ∨
      (W.exec gitInitCommand (appPath W appName)
        (W.exec removeGitCommand (appPath W appName) fs6).fs).status ≠ 0) :
    (∃ e,
        (reinitRepository W appName fs6).trace
            = [.exec removeGitCommand (appPath W appName), .logged e] ∨
          (reinitRepository W appName fs6).trace
            = [.exec removeGitCommand (appPath W appName),
               .exec gitInitCommand (appPath W appName), .logged e]) ∧
      createApp W appName gitPath fs =
        { trace := t ++ (reinitRepository W appName fs6).trace ++
            [
              .stdout "",
              .stdout ("Success! Created " ++ appName ++ " at " ++ appPathText W appName),
              .stdout "Inside that directory, you can run several commands:",
              .stdout "",
              .stdout ("  " ++ displayedCommand W ++ " dev"),
              .stdout "    Starts the App development servers.",
              .stdout "",
              .stdout ("  " ++ displayedCommandRun W ++ " build"),
              .stdout "    Containerizes and build the app.",
              .stdout "",
              .stdout ("  " ++ displayedCommand W ++ " test"),
              .stdout "    Starts the test runner.",
              .stdout "",
              .stdout ("  " ++ displayedCommandRun W ++ " eject-www"),
              .stdout "    Removes the Create React App tools and copies build dependencies,",
              .stdout "    configuration files and scripts into the app directory. If you do",
              .stdout "    this, you can’t go back!",
              .stdout "",
              .stdout "We suggest that you begin by typing:",
              .stdout "",
              .stdout ("  cd " ++ appName),
              .stdout ("  " ++ displayedCommand W ++ " start"),
              .stdout "",
              .stdout "check docs: https://g22h5luj8j.feishu.cn/wiki/QzpLwW2Gtint80kV3fjcneqLnWb",
              .stdout "",
              .stdout "Happy hacking!" ]
          fs := (reinitRepository W appName fs6).fs
          outcome := .resolved } ∧
      processExitCode W (createApp W appName gitPath fs).outcome = 0 := by
  have hrun : createApp W appName gitPath fs =
      { trace := t ++ (reinitRepository W appName fs6).trace ++
          [
              .stdout "",
              .stdout ("Success! Created " ++ appName ++ " at " ++ appPathText W appName),
              .stdout "Inside that directory, you can run several commands:",
              .stdout "",
              .stdout ("  " ++ displayedCommand W ++ " dev"),
              .stdout "    Starts the App development servers.",
              .stdout "",
              .stdout ("  " ++ displayedCommandRun W ++ " build"),
              .stdout "    Containerizes and build the app.",
              .stdout "",
              .stdout ("  " ++ displayedCommand W ++ " test"),
              .stdout "    Starts the test runner.",
              .stdout "",
              .stdout ("  " ++ displayedCommandRun W ++ " eject-www"),
              .stdout "    Removes the Create React App tools and copies build dependencies,",
              .stdout "    configuration files and scripts into the app directory. If you do",
              .stdout "    this, you can’t go back!",
              .stdout "",
              .stdout "We suggest that you begin by typing:",
              .stdout "",
              .stdout ("  cd " ++ appName),
              .stdout ("  " ++ displayedCommand W ++ " start"),
              .stdout "",
              .stdout "check docs: https://g22h5luj8j.feishu.cn/wiki/QzpLwW2Gtint80kV3fjcneqLnWb",
              .stdout "",
              .stdout "Happy hacking!" ]
        fs := (reinitRepository W appName fs6).fs
        outcome := .resolved } := by
    rw [createApp_of_uptoInstall W appName gitPath fs t fs6 h]
    have hnone : (reinitRepository W appName fs6).thrown = none := by
      unfold reinitRepository
      simp only
      split
      · rfl
      · split <;> rfl
    rw [fromReinit, Step.andThen_none _ _ hnone]
    simp [printSummary, successSummary, Run.after, List.append_assoc]
  refine ⟨?_, hrun, ?_⟩
  · by_cases h1 : (W.exec removeGitCommand (appPath W appName) fs6).status = 0
    · have h2 : (W.exec gitInitCommand (appPath W appName)
          (W.exec removeGitCommand (appPath W appName) fs6).fs).status ≠ 0 := by
        rcases hf with hf | hf
        · exact absurd h1 hf
        · exact hf
      exact ⟨.commandFailed gitInitCommand (W.exec gitInitCommand (appPath W appName)
          (W.exec removeGitCommand (appPath W appName) fs6).fs).status,
        Or.inr (by simp [reinitRepository, execSync, h1, h2])⟩
    · exact ⟨.commandFailed removeGitCommand
          (W.exec removeGitCommand (appPath W appName) fs6).status,
        Or.inl (by simp [reinitRepository, execSync, h1])⟩
  · rw [hrun]; rfl

theorem reinit_failure_not_fatal_witness :
    (createApp (sampleWorld sampleManifest ["rm -rf .git"] node18) "foo" (some sampleUrl)
        sampleDisk).trace.drop 12 =
      [ .exec "rm -rf .git" ["home", "dev", "foo"],
        .logged (.commandFailed "rm -rf .git" 1),
        .stdout "",
        .stdout "Success! Created foo at /home/dev/foo",
        .stdout "Inside that directory, you can run several commands:",
        .stdout "",
        .stdout "  npm dev",
        .stdout "    Starts the App development servers.",
        .stdout "",
        .stdout "  npm run build",
        .stdout "    Containerizes and build the app.",
        .stdout "",
        .stdout "  npm test",
        .stdout "    Starts the test runner.",
        .stdout "",
        .stdout "  npm run eject-www",
        .stdout "    Removes the Create React App tools and copies build dependencies,",
        .stdout "    configuration files and scripts into the app directory. If you do",
        .stdout "    this, you can’t go back!",
        .stdout "",
        .stdout "We suggest that you begin by typing:",
        .stdout "",
        .stdout "  cd foo",
        .stdout "  npm start",
        .stdout "",
        .stdout "check docs: https://g22h5luj8j.feishu.cn/wiki/QzpLwW2Gtint80kV3fjcneqLnWb",
        .stdout "",
        .stdout "Happy hacking!" ] ∧
      (createApp (sampleWorld sampleManifest ["rm -rf .git"] node18) "foo" (some sampleUrl)
        sampleDisk).outcome = .resolved ∧
      processExitCode (sampleWorld sampleManifest ["rm -rf .git"] node18)
        (createApp (sampleWorld sampleManifest ["rm -rf .git"] node18) "foo" (some sampleUrl)
          sampleDisk).outcome = 0 :=
  have h := reinit_failure_not_fatal (sampleWorld sampleManifest ["rm -rf .git"] node18)
    "foo" (some sampleUrl) sampleDisk _ _ (by rfl) (Or.inl (by decide))
  ⟨by rw [h.2.1]; rfl, by rw [h.2.1], h.2.2⟩

/-! ## The manifest cannot be read or parsed (C3) -/

theorem fromInstall_first_calls (W : World) (appName : String) (fs : FS) :
    (fromInstall W appName fs).trace.take 2
      = [.stdout installingMessage, .exec (installCommand W) (appPath W appName)] := by
  unfold fromInstall Step.andThen
  cases hthrown : (installDependencies W appName fs).thrown with
  | some e => simp [installDependencies, execSync]
  | none => simp [installDependencies, execSync, Run.after]

/-- C3: when the run reaches the manifest step and the manifest is missing,
cannot be read, or is not valid JSON, the error is caught and logged, nothing
is written (the step leaves the filesystem, and so the manifest, exactly as the
copy produced it), and the run goes on with the install step. -/
theorem manifest_failure_not_fatal (W : World) (appName : String) (gitPath : Option String)
    (fs : FS) (t : List Effect) (fs4 : FS)
    (h : uptoCopy W appName gitPath fs = some (t, fs4))
    (hbad : (∃ e, readFileSync fs4 (appPackageJsonPath W appName) = .error e) ∨
      (∃ text, readFileSync fs4 (appPackageJsonPath W appName) = .ok text ∧
        jsonParse text = none)) :
    ∃ e,
      rewriteManifest W appName fs4 =
          { trace := [.readFile (appPackageJsonPath W appName), .logged e]
            fs := fs4, thrown := none } ∧
        uptoManifest W appName gitPath fs
          = some (t ++ [.readFile (appPackageJsonPath W appName), .logged e], fs4) ∧
        createApp W appName gitPath fs
          = (fromInstall W appName fs4).after
              (t ++ [.readFile (appPackageJsonPath W appName), .logged e]) ∧
        (fromInstall W appName fs4).trace.take 2
          = [.stdout installingMessage, .exec (installCommand W) (appPath W appName)] := by
  have hstep : ∃ e, rewriteManifest W appName fs4 =
      { trace := [.readFile (appPackageJsonPath W appName), .logged e]
        fs := fs4, thrown := none } := by
    rcases hbad with ⟨e, he⟩ | ⟨text, hr, hp⟩
    · exact ⟨e, by simp [rewriteManifest, he]⟩
    · exact ⟨.jsonSyntax text, by simp [rewriteManifest, hr, hp]⟩
  obtain ⟨e, he⟩ := hstep
  have hup : uptoManifest W appName gitPath fs
      = some (t ++ [.readFile (appPackageJsonPath W appName), .logged e], fs4) := by
    unfold uptoManifest
    rw [h, Progress.extend_of _ _ _ (by rw [he]), he]
  exact ⟨e, he, hup, createApp_of_uptoManifest W appName gitPath fs _ _ hup,
    fromInstall_first_calls W appName fs4⟩

theorem manifest_failure_not_fatal_witness :
    jsonParse "name = template" = none ∧
      readFileSync
        (createApp (sampleWorld brokenManifest [] node18) "foo" (some sampleUrl) sampleDisk).fs
        ["home", "dev", "foo", "package.json"] = .ok "name = template" ∧
      (createApp (sampleWorld brokenManifest [] node18) "foo" (some sampleUrl)
          sampleDisk).trace.take 12
        = [ .probeLockfile, .probeBinary,
            .stdout "git项目模版： https://example.org/template.git",
            .mkdir ["home", "dev", "foo"],
            .rm ["opt", "tool", "src", "template"],
            .mkdir ["opt", "tool", "src", "template"],
            .exec "git clone https://example.org/template.git /opt/tool/src/template"
              ["home", "dev", "foo"],
            .copy ["opt", "tool", "src", "template"] ["home", "dev", "foo"],
            .readFile ["home", "dev", "foo", "package.json"],
            .logged (.jsonSyntax "name = template"),
            .stdout "Installing packages. This might take a couple of minutes.\n",
            .exec "npm install" ["home", "dev", "foo"] ] ∧
      ∃ e, uptoManifest (sampleWorld brokenManifest [] node18) "foo" (some sampleUrl) sampleDisk
        = some ([.probeLockfile, .probeBinary,
                 .stdout "git项目模版： https://example.org/template.git",
                 .mkdir ["home", "dev", "foo"],
                 .rm ["opt", "tool", "src", "template"],
                 .mkdir ["opt", "tool", "src", "template"],
                 .exec "git clone https://example.org/template.git /opt/tool/src/template"
                   ["home", "dev", "foo"],
                 .copy ["opt", "tool", "src", "template"] ["home", "dev", "foo"]]
                ++ [.readFile ["home", "dev", "foo", "package.json"], .logged e],
              [ (["home"], .dir), (["home", "dev"], .dir),
                (["opt"], .dir), (["opt", "tool"], .dir), (["opt", "tool", "src"], .dir),
                (["home", "dev", "foo"], .dir),
                (["opt", "tool", "src", "template"], .dir),
                (["opt", "tool", "src", "template", ".git"], .dir),
                (["opt", "tool", "src", "template", "package.json"], .file "name = template"),
                (["opt", "tool", "src", "template", "index.js"], .file "main()"),
                (["home", "dev", "foo", ".git"], .dir),
                (["home", "dev", "foo", "package.json"], .file "name = template"),
                (["home", "dev", "foo", "index.js"], .file "main()") ]) :=
  have h := manifest_failure_not_fatal (sampleWorld brokenManifest [] node18) "foo"
    (some sampleUrl) sampleDisk _ _ (by rfl) (Or.inr ⟨"name = template", by rfl, by rfl⟩)
  ⟨by rfl, by rfl, by decide, h.choose, h.choose_spec.2.1⟩

/-! ## The run in which nothing fails (C8) -/

/-- C8 as amended: in a run in which no step fails, `createApp` makes exactly
these calls, in this order, each once: the read-only probes of the environment
prober (the lockfile and, when there is none, the version probe of the binary);
the message of line 54 with the template source; it makes the target directory,
removes the scratch directory, makes it again, runs `git clone` of the template
into it, copies it into the target directory, reads and then writes the
manifest of the target; the message of line 98; the install command of the
selected package manager (`yarnpkg install` when the prober answered yes,
`npm install` otherwise) in the target directory; `rm -rf .git` and then
`git init && git add . && git commit` there; and the lines of the summary;
then it returns. -/
theorem createApp_all_steps (W : World) (appName : String) (gitPath : Option String)
    (fs : FS) (t : List Effect) (fs4 fs5 : FS) (text : String) (value v : Json)
    (h : uptoCopy W appName gitPath fs = some (t, fs4))
    (hr : readFileSync fs4 (appPackageJsonPath W appName) = .ok text)
    (hp : jsonParse text = some value)
    (ha : assignName value appName = .ok v)
    (hw : writeFileSync fs4 (appPackageJsonPath W appName) (stringify v) = .ok fs5)
    (hi : (W.exec (installCommand W) (appPath W appName) fs5).status = 0)
    (hg : (W.exec removeGitCommand (appPath W appName)
      (W.exec (installCommand W) (appPath W appName) fs5).fs).status = 0)
    (hc : (W.exec gitInitCommand (appPath W appName)
      (W.exec removeGitCommand (appPath W appName)
        (W.exec (installCommand W) (appPath W appName) fs5).fs).fs).status = 0) :
    createApp W appName gitPath fs =
        { trace :=
            (if W.lockfile = true then [Effect.probeLockfile]
              else [Effect.probeLockfile, Effect.probeBinary]) ++
            [ .stdout ("git项目模版： " ++ jsText gitPath),
              .mkdir (appPath W appName),
              .rm (templatePath W),
              .mkdir (templatePath W),
              .exec ("git clone " ++ jsText gitPath ++ " " ++ (templatePath W).render)
                (appPath W appName),
              .copy (templatePath W) (appPath W appName),
              .readFile (appPackageJsonPath W appName),
              .writeFile (appPackageJsonPath W appName) (stringify v),
              .stdout "Installing packages. This might take a couple of minutes.\n",
              .exec (if W.lockfile || W.binaryAnswers then "yarnpkg install" else "npm install")
                (appPath W appName),
              .exec "rm -rf .git" (appPath W appName),
              .exec "git init && git add . && git commit -m \"initial commit\""
                (appPath W appName),
              .stdout "",
              .stdout ("Success! Created " ++ appName ++ " at " ++ appPathText W appName),
              .stdout "Inside that directory, you can run several commands:",
              .stdout "",
              .stdout ("  " ++ displayedCommand W ++ " dev"),
              .stdout "    Starts the App development servers.",
              .stdout "",
              .stdout ("  " ++ displayedCommandRun W ++ " build"),
              .stdout "    Containerizes and build the app.",
              .stdout "",
              .stdout ("  " ++ displayedCommand W ++ " test"),
              .stdout "    Starts the test runner.",
              .stdout "",
              .stdout ("  " ++ displayedCommandRun W ++ " eject-www"),
              .stdout "    Removes the Create React App tools and copies build dependencies,",
              .stdout "    configuration files and scripts into the app directory. If you do",
              .stdout "    this, you can’t go back!",
              .stdout "",
              .stdout "We suggest that you begin by typing:",
              .stdout "",
              .stdout ("  cd " ++ appName),
              .stdout ("  " ++ displayedCommand W ++ " start"),
              .stdout "",
              .stdout "check docs: https://g22h5luj8j.feishu.cn/wiki/QzpLwW2Gtint80kV3fjcneqLnWb",
              .stdout "",
              .stdout "Happy hacking!" ]
          fs := (W.exec gitInitCommand (appPath W appName)
            (W.exec removeGitCommand (appPath W appName)
              (W.exec (installCommand W) (appPath W appName) fs5).fs).fs).fs
          outcome := .resolved } := by
  have hcmd : installCommand W
      = (if W.lockfile || W.binaryAnswers then "yarnpkg install" else "npm install") := by
    unfold installCommand shouldUseYarn
    cases W.lockfile || W.binaryAnswers <;> rfl
  have hrun : createApp W appName gitPath fs =
      { trace :=
          proberCalls W ++
          [ .stdout (templateMessage gitPath),
            .mkdir (appPath W appName),
            .rm (templatePath W),
            .mkdir (templatePath W),
            .exec (cloneCommand W gitPath) (appPath W appName),
            .copy (templatePath W) (appPath W appName),
            .readFile (appPackageJsonPath W appName),
            .writeFile (appPackageJsonPath W appName) (stringify v),
            .stdout installingMessage,
            .exec (installCommand W) (appPath W appName),
            .exec removeGitCommand (appPath W appName),
            .exec gitInitCommand (appPath W appName) ]
          ++ (successSummary W appName).map Effect.stdout
        fs := (W.exec gitInitCommand (appPath W appName)
          (W.exec removeGitCommand (appPath W appName)
            (W.exec (installCommand W) (appPath W appName) fs5).fs).fs).fs
        outcome := .resolved } := by
    rw [createApp_of_uptoCopy W appName gitPath fs t fs4 h,
      uptoCopy_trace W appName gitPath fs t fs4 h]
    simp [fromManifest, rewriteManifest, hr, hp, ha, hw, fromInstall, installDependencies,
      execSync, hi, fromReinit, reinitRepository, hg, hc, printSummary, Step.andThen, Run.after]
  rw [hrun, hcmd]
  simp [proberCalls, templateMessage, cloneCommand, installingMessage, removeGitCommand,
    gitInitCommand, successSummary]

theorem createApp_all_steps_witness :
    createApp (yarnWorld namelessManifest node18) "foo" (some sampleUrl) sampleDisk =
      { trace :=
          [ .probeLockfile ] ++
          [ .stdout "git项目模版： https://example.org/template.git",
            .mkdir ["home", "dev", "foo"],
            .rm ["opt", "tool", "src", "template"],
            .mkdir ["opt", "tool", "src", "template"],
            .exec "git clone https://example.org/template.git /opt/tool/src/template"
              ["home", "dev", "foo"],
            .copy ["opt", "tool", "src", "template"] ["home", "dev", "foo"],
            .readFile ["home", "dev", "foo", "package.json"],
            .writeFile ["home", "dev", "foo", "package.json"]
              ("\x7b\n  \"version\": \"1.0.0\",\n  \"private\": true,\n"
                ++ "  \"name\": \"foo\"\n\x7d"),
            .stdout "Installing packages. This might take a couple of minutes.\n",
            .exec "yarnpkg install" ["home", "dev", "foo"],
            .exec "rm -rf .git" ["home", "dev", "foo"],
            .exec "git init && git add . && git commit -m \"initial commit\""
              ["home", "dev", "foo"],
            .stdout "",
            .stdout "Success! Created foo at /home/dev/foo",
            .stdout "Inside that directory, you can run several commands:",
            .stdout "",
            .stdout "  yarn dev",
            .stdout "    Starts the App development servers.",
            .stdout "",
            .stdout "  yarn build",
            .stdout "    Containerizes and build the app.",
            .stdout "",
            .stdout "  yarn test",
            .stdout "    Starts the test runner.",
            .stdout "",
            .stdout "  yarn eject-www",
            .stdout "    Removes the Create React App tools and copies build dependencies,",
            .stdout "    configuration files and scripts into the app directory. If you do",
            .stdout "    this, you can’t go back!",
            .stdout "",
            .stdout "We suggest that you begin by typing:",
            .stdout "",
            .stdout "  cd foo",
            .stdout "  yarn start",
            .stdout "",
            .stdout "check docs: https://g22h5luj8j.feishu.cn/wiki/QzpLwW2Gtint80kV3fjcneqLnWb",
            .stdout "",
            .stdout "Happy hacking!" ]
        fs := [ (["home"], .dir), (["home", "dev"], .dir),
                (["opt"], .dir), (["opt", "tool"], .dir), (["opt", "tool", "src"], .dir),
                (["home", "dev", "foo"], .dir),
                (["opt", "tool", "src", "template"], .dir),
                (["opt", "tool", "src", "template", ".git"], .dir),
                (["opt", "tool", "src", "template", "package.json"],
                  .file "\x7b\"version\":\"1.0.0\",\"private\":true\x7d"),
                (["opt", "tool", "src", "template", "index.js"], .file "main()"),
                (["home", "dev", "foo", "package.json"],
                  .file ("\x7b\n  \"version\": \"1.0.0\",\n  \"private\": true,\n"
                    ++ "  \"name\": \"foo\"\n\x7d")),
                (["home", "dev", "foo", "index.js"], .file "main()"),
                (["home", "dev", "foo", "node_modules"], .dir),
                (["home", "dev", "foo", ".git"], .dir) ]
        outcome := .resolved } := by
  have h := createApp_all_steps (yarnWorld namelessManifest node18) "foo" (some sampleUrl)
    sampleDisk _ _ _ namelessManifest
    (.obj [(toUnits "version", .str (toUnits "1.0.0")), (toUnits "private", .bool true)])
    (.obj [(toUnits "version", .str (toUnits "1.0.0")), (toUnits "private", .bool true),
           (toUnits "name", .str (toUnits "foo"))])
    (by rfl) (by rfl) (by rfl) (by rfl) (by rfl) (by decide) (by decide) (by decide)
  rw [h]
  decide

/-- C8 fails as stated: in the run of the example in which no step fails, the
calls of `createApp` do not begin with the making of the target directory: the
two probes of the environment prober and the message of line 54 come first, and
the message of line 98 stands between the write of the manifest and the
install. -/
theorem all_steps_more_calls :
    (createApp (sampleWorld sampleManifest [] node18) "foo" (some sampleUrl)
        sampleDisk).outcome = .resolved ∧
      (createApp (sampleWorld sampleManifest [] node18) "foo" (some sampleUrl)
          sampleDisk).trace.take 14
        = [ .probeLockfile, .probeBinary,
            .stdout "git项目模版： https://example.org/template.git",
            .mkdir ["home", "dev", "foo"],
            .rm ["opt", "tool", "src", "template"],
            .mkdir ["opt", "tool", "src", "template"],
            .exec "git clone https://example.org/template.git /opt/tool/src/template"
              ["home", "dev", "foo"],
            .copy ["opt", "tool", "src", "template"] ["home", "dev", "foo"],
            .readFile ["home", "dev", "foo", "package.json"],
            .writeFile ["home", "dev", "foo", "package.json"]
              ("\x7b\n  \"name\": \"foo\",\n  \"version\": \"1.0.0\",\n"
                ++ "  \"port\": 3000\n\x7d"),
            .stdout "Installing packages. This might take a couple of minutes.\n",
            .exec "npm install" ["home", "dev", "foo"],
            .exec "rm -rf .git" ["home", "dev", "foo"],
            .exec "git init && git add . && git commit -m \"initial commit\""
              ["home", "dev", "foo"] ] ∧
      (createApp (sampleWorld sampleManifest [] node18) "foo" (some sampleUrl)
          sampleDisk).trace.take 10
        ≠ [ .mkdir ["home", "dev", "foo"],
            .rm ["opt", "tool", "src", "template"],
            .mkdir ["opt", "tool", "src", "template"],
            .exec "git clone https://example.org/template.git /opt/tool/src/template"
              ["home", "dev", "foo"],
            .copy ["opt", "tool", "src", "template"] ["home", "dev", "foo"],
            .readFile ["home", "dev", "foo", "package.json"],
            .writeFile ["home", "dev", "foo", "package.json"]
              ("\x7b\n  \"name\": \"foo\",\n  \"version\": \"1.0.0\",\n"
                ++ "  \"port\": 3000\n\x7d"),
            .exec "npm install" ["home", "dev", "foo"],
            .exec "rm -rf .git" ["home", "dev", "foo"],
            .exec "git init && git add . && git commit -m \"initial commit\""
              ["home", "dev", "foo"] ] := by
  refine ⟨?_, ?_, ?_⟩ <;> decide

/-! ## The scratch directory (C10) -/

theorem statSync_cons (fs : FS) (a : String) (p : Path) :
    statSync fs (a :: p) = (fs.find? (fun e => decide (e.1 = a :: p))).map (·.2) := rfl

theorem statSync_of_ne_nil (fs : FS) (p : Path) (hp : p ≠ []) :
    statSync fs p = (fs.find? (fun e => decide (e.1 = p))).map (·.2) := by
  cases p with
  | nil => exact absurd rfl hp
  | cons a p => rfl

theorem isUnder_self (p : Path) : isUnder p p = true := by
  induction p with
  | nil => rfl
  | cons a p ih => simp [isUnder, ih]

theorem isUnder_length (p q : Path) (h : isUnder p q = true) : p.length ≤ q.length := by
  induction p generalizing q with
  | nil => simp
  | cons a p ih =>
    cases q with
    | nil => simp [isUnder] at h
    | cons b q =>
      simp only [isUnder, Bool.and_eq_true] at h
      simpa using ih q h.2

theorem find?_agree {α : Type} (l : List α) (p q : α → Bool) (h : ∀ x ∈ l, p x = q x) :
    l.find? p = l.find? q := by
  induction l with
  | nil => rfl
  | cons a l ih =>
    have ha : p a = q a := h a (List.mem_cons_self a l)
    have hl : l.find? p = l.find? q := ih (fun x hx => h x (List.mem_cons_of_mem a hx))
    simp [List.find?_cons, ha, hl]

/-- Removing a subtree leaves every path outside it as it was. -/
theorem statSync_filter_outside (fs : FS) (p q : Path) (h : isUnder p q = false) :
    statSync (fs.filter (fun e => !isUnder p e.1)) q = statSync fs q := by
  cases q with
  | nil => rfl
  | cons a q =>
    rw [statSync_cons, statSync_cons, List.find?_filter]
    congr 1
    apply find?_agree
    intro x _
    by_cases hx : x.1 = a :: q
    · simp [hx, h]
    · simp [hx]

/-- Removing a subtree leaves nothing at its root. -/
theorem statSync_filter_root (fs : FS) (p : Path) (hp : p ≠ []) :
    statSync (fs.filter (fun e => !isUnder p e.1)) p = none := by
  rw [statSync_of_ne_nil _ _ hp, List.find?_filter]
  have : List.find? (fun a => decide ((!isUnder p a.1) = true ∧ decide (a.1 = p) = true)) fs
      = none := by
    rw [List.find?_eq_none]
    intro x _
    by_cases hx : x.1 = p
    · simp [hx, isUnder_self]
    · simp [hx]
  rw [this]
  rfl

/-- A new entry leaves every other path as it was. -/
theorem statSync_append_other (fs : FS) (p q : Path) (n : Node) (h : q ≠ p) :
    statSync (fs ++ [(p, n)]) q = statSync fs q := by
  cases q with
  | nil => rfl
  | cons a q =>
    rw [statSync_cons, statSync_cons, List.find?_append]
    have hne : ¬ (p = a :: q) := fun e => h e.symm
    cases hf : List.find? (fun e => decide (e.1 = a :: q)) fs with
    | some x => simp
    | none => simp [List.find?_cons, hne]

theorem templatePath_ne_nil (W : World) : templatePath W ≠ [] := by
  simp [templatePath]

theorem templatePath_dropLast (W : World) : (templatePath W).dropLast = W.ownPath ++ ["src"] := by
  have : templatePath W = (W.ownPath ++ ["src"]) ++ ["template"] := by
    simp [templatePath]
  rw [this, List.dropLast_concat]

theorem templatePath_not_above (W : World) :
    isUnder (templatePath W) (W.ownPath ++ ["src"]) = false := by
  cases h : isUnder (templatePath W) (W.ownPath ++ ["src"]) with
  | false => rfl
  | true =>
    have := isUnder_length _ _ h
    simp [templatePath] at this

/-- The scratch step on a runtime that has `fs.rmSync` and a filesystem that
holds the scratch directory. -/
theorem resetScratch_present (W : World) (fs1 : FS)
    (hrt : providesRmSync W.version = true)
    (hparent : statSync fs1 (W.ownPath ++ ["src"]) = some .dir)
    (hpresent : (statSync fs1 (templatePath W)).isSome = true) :
    resetScratch W fs1 =
      { trace := [.rm (templatePath W), .mkdir (templatePath W)]
        fs := fs1.filter (fun e => !isUnder (templatePath W) e.1) ++ [(templatePath W, .dir)]
        thrown := none } := by
  have hrm : rmSync fs1 (templatePath W)
      = .ok (fs1.filter (fun e => !isUnder (templatePath W) e.1)) := by
    unfold rmSync
    cases hs : statSync fs1 (templatePath W) with
    | none => simp [hs] at hpresent
    | some n => rfl
  have hmk : mkdirSync (fs1.filter (fun e => !isUnder (templatePath W) e.1)) (templatePath W)
      = .ok (fs1.filter (fun e => !isUnder (templatePath W) e.1) ++ [(templatePath W, .dir)]) := by
    unfold mkdirSync
    rw [statSync_filter_root fs1 _ (templatePath_ne_nil W), templatePath_dropLast,
      statSync_filter_outside fs1 _ _ (templatePath_not_above W), hparent]
  simp [resetScratch, hrt, hrm, hmk]

theorem isEmptyDir_after_reset (fs1 : FS) (p : Path) (hp : p ≠ []) :
    isEmptyDir (fs1.filter (fun e => !isUnder p e.1) ++ [(p, .dir)]) p := by
  constructor
  · rw [statSync_of_ne_nil _ _ hp, List.find?_append]
    have h0 := statSync_filter_root fs1 p hp
    rw [statSync_of_ne_nil _ _ hp] at h0
    cases hf : List.find? (fun e => decide (e.1 = p))
        (List.filter (fun e => !isUnder p e.1) fs1) with
    | some x => rw [hf] at h0; simp at h0
    | none => simp
  · intro e he hu
    rw [List.mem_append] at he
    rcases he with he | he
    · rw [List.mem_filter] at he
      simp [hu] at he
    · simp at he
      rw [he]

theorem fromClone_first_call (W : World) (appName : String) (gitPath : Option String) (fs : FS) :
    (fromClone W appName gitPath fs).trace.head?
      = some (.exec (cloneCommand W gitPath) (appPath W appName)) := by
  unfold fromClone Step.andThen
  cases hthrown : (cloneTemplate W appName gitPath fs).thrown with
  | some e => simp [cloneTemplate, execSync]
  | none => simp [cloneTemplate, execSync, Run.after]

/-- C10 as amended: in a run that has made the target directory (the parent
`src` of the scratch directory being a directory, as on every installation of
the tool), what lines 79-80 do depends on the runtime and on the scratch
directory.  On a runtime that has `fs.rmSync` (Node 14.14.0 or later), a
scratch directory that is present, with whatever contents, is removed and made
again: after step 2 it exists and is empty, and the clone is the next call and
starts from it; a scratch directory that is absent makes the removal throw
`ENOENT`, and the run ends there, rejected, without making the scratch
directory and without a clone.  On a runtime without `fs.rmSync`, line 79
throws a `TypeError` before any call, and the run ends there, rejected, with
the filesystem as the creation of the target directory left it. -/
theorem scratch_reset (W : World) (appName : String) (gitPath : Option String) (fs : FS)
    (t : List Effect) (fs1 : FS)
    (h : uptoTargetDir W appName gitPath fs = some (t, fs1))
    (hparent : statSync fs1 (W.ownPath ++ ["src"]) = some .dir) :
    (providesRmSync W.version = true → (statSync fs1 (templatePath W)).isSome = true →
        ∃ fs2,
          uptoScratch W appName gitPath fs
            = some (t ++ [.rm (templatePath W), .mkdir (templatePath W)], fs2) ∧
          isEmptyDir fs2 (templatePath W) ∧
          (∀ q, isUnder (templatePath W) q = false → statSync fs2 q = statSync fs1 q) ∧
          createApp W appName gitPath fs
            = (fromClone W appName gitPath fs2).after
                (t ++ [.rm (templatePath W), .mkdir (templatePath W)]) ∧
          (fromClone W appName gitPath fs2).trace.head?
            = some (.exec (cloneCommand W gitPath) (appPath W appName))) ∧
      (providesRmSync W.version = true → statSync fs1 (templatePath W) = none →
        createApp W appName gitPath fs =
          { trace := t ++ [.rm (templatePath W)], fs := fs1
            outcome := .rejected (.ENOENT (templatePath W)) }) ∧
      (providesRmSync W.version = false →
        createApp W appName gitPath fs =
          { trace := t, fs := fs1, outcome := .rejected (.notAFunction "fs.rmSync") }) := by
  refine ⟨?_, ?_, ?_⟩
  · intro hrt hpresent
    have hstep := resetScratch_present W fs1 hrt hparent hpresent
    have hup : uptoScratch W appName gitPath fs
        = some (t ++ [.rm (templatePath W), .mkdir (templatePath W)],
            fs1.filter (fun e => !isUnder (templatePath W) e.1) ++ [(templatePath W, .dir)]) := by
      unfold uptoScratch
      rw [h, Progress.extend_of _ _ _ (by rw [hstep]), hstep]
    refine ⟨_, hup, isEmptyDir_after_reset fs1 _ (templatePath_ne_nil W), ?_,
      createApp_of_uptoScratch W appName gitPath fs _ _ hup,
      fromClone_first_call W appName gitPath _⟩
    intro q hq
    have hne : q ≠ templatePath W := by
      intro heq
      rw [heq, isUnder_self] at hq
      exact absurd hq (by simp)
    rw [statSync_append_other _ _ _ _ hne, statSync_filter_outside fs1 _ _ hq]
  · intro hrt habsent
    rw [createApp_of_uptoTargetDir W appName gitPath fs t fs1 h]
    simp [fromScratch, resetScratch, hrt, rmSync, habsent, Step.andThen, Run.after]
  · intro hrt
    rw [createApp_of_uptoTargetDir W appName gitPath fs t fs1 h]
    simp [fromScratch, resetScratch, hrt, Step.andThen, Run.after]

theorem scratch_reset_witness :
    ∃ fs2,
      uptoScratch (sampleWorld sampleManifest [] node18) "foo" (some sampleUrl) sampleDisk
        = some ([.probeLockfile, .probeBinary,
                 .stdout "git项目模版： https://example.org/template.git",
                 .mkdir ["home", "dev", "foo"]]
               ++ [.rm ["opt", "tool", "src", "template"],
                   .mkdir ["opt", "tool", "src", "template"]], fs2) ∧
      isEmptyDir fs2 ["opt", "tool", "src", "template"] ∧
      statSync fs2 ["home", "dev", "foo"] = some .dir :=
  have h := (scratch_reset (sampleWorld sampleManifest [] node18) "foo" (some sampleUrl)
    sampleDisk _ _ (by rfl) (by decide)).1 (by decide) (by decide)
  ⟨h.choose, h.choose_spec.1, h.choose_spec.2.1,
    (h.choose_spec.2.2.1 ["home", "dev", "foo"] (by decide)).trans (by decide)⟩

/-- C10 fails as stated, in two ways.  With the scratch directory absent (and a
runtime that has `fs.rmSync`), the run makes the target directory, the removal
of the scratch directory throws `ENOENT`, and the run ends with no scratch
directory and without reaching the clone.  On Node 12.22.0, which passes the
version check of the script, `fs.rmSync` is not a function: the run ends at
line 79, and the scratch directory still holds the file an earlier run left. -/
theorem scratch_absent_aborts :
    (statSync bareDisk ["opt", "tool", "src", "template"] = none ∧
      script (sampleWorld sampleManifest [] node18) "foo" (some sampleUrl) bareDisk =
        { trace := [.probeLockfile, .probeBinary,
                    .stdout "git项目模版： https://example.org/template.git",
                    .mkdir ["home", "dev", "foo"],
                    .rm ["opt", "tool", "src", "template"]]
          fs := [ (["home"], .dir), (["home", "dev"], .dir),
                  (["opt"], .dir), (["opt", "tool"], .dir), (["opt", "tool", "src"], .dir),
                  (["home", "dev", "foo"], .dir) ]
          outcome := .rejected (.ENOENT ["opt", "tool", "src", "template"]) } ∧
      statSync
        (script (sampleWorld sampleManifest [] node18) "foo" (some sampleUrl) bareDisk).fs
        ["opt", "tool", "src", "template"] = none) ∧
    (satisfiesAtLeast node12 minimumVersion = true ∧
      script (sampleWorld sampleManifest [] node12) "foo" (some sampleUrl) sampleDisk =
        { trace := [.probeLockfile, .probeBinary,
                    .stdout "git项目模版： https://example.org/template.git",
                    .mkdir ["home", "dev", "foo"]]
          fs := sampleDisk ++ [(["home", "dev", "foo"], .dir)]
          outcome := .rejected (.notAFunction "fs.rmSync") } ∧
      statSync
        (script (sampleWorld sampleManifest [] node12) "foo" (some sampleUrl) sampleDisk).fs
        ["opt", "tool", "src", "template", "stale.txt"] = some (.file "old")) := by
  refine ⟨⟨?_, ?_, ?_⟩, ?_, ?_, ?_⟩ <;> decide

/-! ## The manifest rewrite (C2) -/

/-- Replacing the entries with key `k` puts the new value at the first of them. -/
theorem find?_map_replace {α β : Type} [DecidableEq α] (l : List (α × β)) (k : α) (v : β)
    (h : (l.find? (fun e => decide (e.1 = k))).isSome = true) :
    (l.map (fun e => if e.1 = k then (k, v) else e)).find? (fun e => decide (e.1 = k))
      = some (k, v) := by
  induction l with
  | nil => simp at h
  | cons a l ih =>
    by_cases ha : a.1 = k
    · simp [List.find?_cons, ha]
    · have hl : (l.find? (fun e => decide (e.1 = k))).isSome = true := by
        simpa [List.find?_cons, ha] using h
      have hrest := ih hl
      simp [List.find?_cons, ha, hrest]

/-- Replacing the entries with key `k` leaves the other entries as they were. -/
theorem filter_map_replace {α β : Type} [DecidableEq α] (l : List (α × β)) (k : α) (v : β) :
    (l.map (fun e => if e.1 = k then (k, v) else e)).filter (fun e => decide (e.1 ≠ k))
      = l.filter (fun e => decide (e.1 ≠ k)) := by
  induction l with
  | nil => rfl
  | cons a l ih =>
    by_cases ha : a.1 = k
    · simpa [List.filter_cons, ha] using ih
    · simpa [List.filter_cons, ha] using ih

/-- Replacing the entries with key `k` leaves what is found under another key. -/
theorem find?_map_replace_other {α β : Type} [DecidableEq α] (l : List (α × β)) (k q : α)
    (v : β) (h : q ≠ k) :
    ((l.map (fun e => if e.1 = k then (k, v) else e)).find? (fun e => decide (e.1 = q))).map
        (fun e => e.2)
      = (l.find? (fun e => decide (e.1 = q))).map (fun e => e.2) := by
  induction l with
  | nil => rfl
  | cons a l ih =>
    have hkq : ¬ (k = q) := fun e => h e.symm
    by_cases ha : a.1 = k
    · have haq : ¬ (a.1 = q) := fun e => h (e.symm.trans ha)
      rw [List.map_cons, if_pos ha, List.find?_cons, List.find?_cons]
      simp only [hkq, haq, decide_False]
      exact ih
    · rw [List.map_cons, if_neg ha, List.find?_cons, List.find?_cons]
      by_cases haq : a.1 = q
      · simp [haq]
      · simp only [haq, decide_False]
        exact ih

theorem defineProperty_fresh (props : List (JsString × Json)) (k : JsString) (v : Json)
    (hk : ∀ m ∈ props, m.1 ≠ k) (hi : arrayIndex? k = none) :
    defineProperty props k v = props ++ [(k, v)] := by
  have hany : props.any (fun m => decide (m.1 = k)) = false := by
    rw [Bool.eq_false_iff]
    intro h
    rw [List.any_eq_true] at h
    obtain ⟨m, hm, hmk⟩ := h
    exact hk m hm (by simpa using hmk)
  simp [defineProperty, hany, hi]

/-- Members with distinct keys, none an array index, are defined one after the
other in the order in which they are given. -/
theorem foldl_defineProperty (l acc : List (JsString × Json))
    (hn : (l.map (fun m => m.1)).Nodup)
    (hd : ∀ m ∈ l, ∀ a ∈ acc, a.1 ≠ m.1)
    (hi : ∀ m ∈ l, arrayIndex? m.1 = none) :
    l.foldl (fun props m => defineProperty props m.1 m.2) acc = acc ++ l := by
  induction l generalizing acc with
  | nil => simp
  | cons m l ih =>
    have hm : defineProperty acc m.1 m.2 = acc ++ [m] :=
      defineProperty_fresh acc m.1 m.2 (fun a ha => hd m (List.mem_cons_self m l) a ha)
        (hi m (List.mem_cons_self m l))
    rw [List.map_cons, List.nodup_cons] at hn
    rw [List.foldl_cons, hm, ih (acc ++ [m]) hn.2 ?_ (fun x hx => hi x (List.mem_cons_of_mem m hx))]
    · simp
    · intro x hx a ha
      rw [List.mem_append] at ha
      rcases ha with ha | ha
      · exact hd x (List.mem_cons_of_mem m hx) a ha
      · simp only [List.mem_singleton] at ha
        rw [ha]
        intro heq
        exact hn.1 (by rw [heq]; exact List.mem_map_of_mem (fun m => m.1) hx)

theorem keysPlain_spec (ms : List (JsString × Json))
    (h : keysPlain (ms.map (fun m => m.1)) = true) :
    (ms.map (fun m => m.1)).Nodup ∧ ∀ m ∈ ms, arrayIndex? m.1 = none := by
  simp only [keysPlain, Bool.and_eq_true, decide_eq_true_eq, List.all_eq_true] at h
  refine ⟨h.1, ?_⟩
  intro m hm
  have := h.2 m.1 (List.mem_map_of_mem (fun m => m.1) hm)
  simpa using this

mutual
/-- A document in which no object has a repeated key or an array-index key is
the value `JSON.parse` builds from it. -/
theorem internalize_plain : ∀ (v : Json), plainKeys v = true → internalize v = v
  | .null, _ => by simp [internalize]
  | .bool _, _ => by simp [internalize]
  | .num _, _ => by simp [internalize]
  | .str _, _ => by simp [internalize]
  | .arr items, h => by
    simp only [plainKeys] at h
    simp [internalize, internalizeItems_plain items h]
  | .obj members, h => by
    simp only [plainKeys, Bool.and_eq_true] at h
    obtain ⟨hn, hi⟩ := keysPlain_spec members h.1
    rw [internalize, internalizeMembers_plain members h.2,
      foldl_defineProperty members [] hn (by simp) hi]
    simp
theorem internalizeItems_plain : ∀ (xs : List Json), plainItems xs = true →
    internalizeItems xs = xs
  | [], _ => by simp [internalizeItems]
  | x :: xs, h => by
    simp only [plainItems, Bool.and_eq_true] at h
    simp [internalizeItems, internalize_plain x h.1, internalizeItems_plain xs h.2]
theorem internalizeMembers_plain : ∀ (ms : List (JsString × Json)), plainMembers ms = true →
    internalizeMembers ms = ms
  | [], _ => by simp [internalizeMembers]
  | (k, v) :: ms, h => by
    simp only [plainMembers, Bool.and_eq_true] at h
    simp [internalizeMembers, internalize_plain v h.1, internalizeMembers_plain ms h.2]
end

/-- The assignment of line 91 on an object yields the members with the name
field set: in place when the object has the field, last otherwise. -/
theorem assignName_obj (ms : List (JsString × Json)) (appName : String) :
    assignName (.obj ms) appName = .ok (.obj (renamed ms appName)) := by
  have hidx : arrayIndex? (toUnits "name") = none := by decide
  simp only [assignName, defineProperty, renamed, hidx]

theorem member?_renamed (ms : List (JsString × Json)) (appName : String) :
    member? (toUnits "name") (renamed ms appName) = some (.str (toUnits appName)) := by
  unfold member? renamed
  cases hany : ms.any (fun m => decide (m.1 = toUnits "name")) with
  | true =>
    have hsome : (ms.find? (fun e => decide (e.1 = toUnits "name"))).isSome = true := by
      rw [List.find?_isSome]
      exact List.any_eq_true.1 hany
    simp only [if_true]
    rw [find?_map_replace ms (toUnits "name") _ hsome]
    rfl
  | false =>
    have hnone : ms.find? (fun e => decide (e.1 = toUnits "name")) = none := by
      rw [List.find?_eq_none]
      intro x hx hxk
      have : ms.any (fun m => decide (m.1 = toUnits "name")) = true :=
        List.any_eq_true.2 ⟨x, hx, hxk⟩
      rw [hany] at this
      exact absurd this (by simp)
    simp [List.find?_append, hnone]

theorem withoutKey_renamed (ms : List (JsString × Json)) (appName : String) :
    withoutKey (toUnits "name") (renamed ms appName) = withoutKey (toUnits "name") ms := by
  unfold withoutKey renamed
  cases hany : ms.any (fun m => decide (m.1 = toUnits "name")) with
  | true =>
    simp only [if_true]
    exact filter_map_replace ms (toUnits "name") _
  | false => simp [List.filter_append]

/-- The keys after the renaming are those before it, in the same order, with
the name field added last when there was none. -/
theorem renamed_keys (ms : List (JsString × Json)) (appName : String) :
    (renamed ms appName).map (fun m => m.1)
      = (if (member? (toUnits "name") ms).isSome then ms.map (fun m => m.1)
         else ms.map (fun m => m.1) ++ [toUnits "name"]) := by
  unfold member? renamed
  cases hany : ms.any (fun m => decide (m.1 = toUnits "name")) with
  | true =>
    have hsome : (ms.find? (fun e => decide (e.1 = toUnits "name"))).isSome = true := by
      rw [List.find?_isSome]
      exact List.any_eq_true.1 hany
    have hkey : ∀ m : JsString × Json,
        (if m.1 = toUnits "name" then (toUnits "name", Json.str (toUnits appName)) else m).1
          = m.1 := by
      intro m
      by_cases hm : m.1 = toUnits "name" <;> simp [hm]
    simp [hsome, List.map_map, Function.comp, hkey]
  | false =>
    have hnone : ms.find? (fun e => decide (e.1 = toUnits "name")) = none := by
      rw [List.find?_eq_none]
      intro x hx hxk
      have : ms.any (fun m => decide (m.1 = toUnits "name")) = true :=
        List.any_eq_true.2 ⟨x, hx, hxk⟩
      rw [hany] at this
      exact absurd this (by simp)
    simp [hnone]

theorem statSync_of_read (fs : FS) (p : Path) (text : String)
    (h : readFileSync fs p = .ok text) : statSync fs p = some (.file text) := by
  unfold readFileSync at h
  cases hs : statSync fs p with
  | none => simp [hs] at h
  | some n =>
    cases n with
    | dir => simp [hs] at h
    | file c =>
      simp only [hs] at h
      injection h with h
      rw [h]

/-- Writing a file that exists replaces its content: the file then reads as
what was written, and every other path is as it was. -/
theorem write_then_read (fs : FS) (p : Path) (old data : String) (hp : p ≠ [])
    (h : statSync fs p = some (.file old)) :
    writeFileSync fs p data = .ok (fs.map (fun e => if e.1 = p then (p, Node.file data) else e)) ∧
      readFileSync (fs.map (fun e => if e.1 = p then (p, Node.file data) else e)) p
        = .ok data ∧
      ∀ q, q ≠ p →
        statSync (fs.map (fun e => if e.1 = p then (p, Node.file data) else e)) q
          = statSync fs q := by
  refine ⟨?_, ?_, ?_⟩
  · simp [writeFileSync, h]
  · have hsome : (fs.find? (fun e => decide (e.1 = p))).isSome = true := by
      rw [statSync_of_ne_nil fs p hp] at h
      cases hf : fs.find? (fun e => decide (e.1 = p)) with
      | none => simp [hf] at h
      | some x => rfl
    unfold readFileSync
    rw [statSync_of_ne_nil _ p hp, find?_map_replace fs p (Node.file data) hsome]
    rfl
  · intro q hq
    cases q with
    | nil => rfl
    | cons a q =>
      rw [statSync_cons, statSync_cons]
      exact find?_map_replace_other fs p (a :: q) (Node.file data) hq

/-- C2 as amended: when the manifest reads as a JSON text that denotes an
object in which no object, at any depth, has a key that occurs twice or a key
that is an array index (the canonical decimal text of a number below
`2^32 - 1`), the manifest step reads the manifest and writes to it the
2-space-indented serialisation of the object the text denotes with its name
field set to the target name: the name field stands where it stood, or last
when the manifest had none, and every other field has the value and the place
it has in the manifest.  The manifest then reads as that text, and nothing else
on the filesystem changes. -/
theorem manifest_rewrite (W : World) (appName : String) (gitPath : Option String) (fs : FS)
    (t : List Effect) (fs4 : FS) (text : String) (ms : List (JsString × Json))
    (h : uptoCopy W appName gitPath fs = some (t, fs4))
    (hr : readFileSync fs4 (appPackageJsonPath W appName) = .ok text)
    (hp : parseDocument text = some (.obj ms))
    (hk : plainKeys (.obj ms) = true) :
    ∃ fs5,
      uptoManifest W appName gitPath fs
          = some (t ++ [.readFile (appPackageJsonPath W appName),
                        .writeFile (appPackageJsonPath W appName)
                          (stringify (.obj (renamed ms appName)))],
                  fs5) ∧
        readFileSync fs5 (appPackageJsonPath W appName)
          = .ok (stringify (.obj (renamed ms appName))) ∧
        (∀ q, q ≠ appPackageJsonPath W appName → statSync fs5 q = statSync fs4 q) ∧
        member? (toUnits "name") (renamed ms appName) = some (.str (toUnits appName)) ∧
        withoutKey (toUnits "name") (renamed ms appName) = withoutKey (toUnits "name") ms ∧
        (renamed ms appName).map (fun m => m.1)
          = (if (member? (toUnits "name") ms).isSome then ms.map (fun m => m.1)
             else ms.map (fun m => m.1) ++ [toUnits "name"]) := by
  have hne : appPackageJsonPath W appName ≠ [] := by simp [appPackageJsonPath]
  have hstat := statSync_of_read _ _ _ hr
  obtain ⟨hw, hrd, hother⟩ := write_then_read fs4 (appPackageJsonPath W appName) text
    (stringify (.obj (renamed ms appName))) hne hstat
  have hparse : jsonParse text = some (.obj ms) := by
    simp [jsonParse, hp, internalize_plain _ hk]
  have hstep : rewriteManifest W appName fs4 =
      { trace := [.readFile (appPackageJsonPath W appName),
                  .writeFile (appPackageJsonPath W appName)
                    (stringify (.obj (renamed ms appName)))]
        fs := fs4.map (fun e => if e.1 = appPackageJsonPath W appName then
          (appPackageJsonPath W appName, Node.file (stringify (.obj (renamed ms appName))))
          else e)
        thrown := none } := by
    simp [rewriteManifest, hr, hparse, assignName_obj, hw]
  refine ⟨_, ?_, hrd, hother, member?_renamed _ _, withoutKey_renamed _ _, renamed_keys _ _⟩
  unfold uptoManifest
  rw [h, Progress.extend_of _ _ _ (by rw [hstep]), hstep]

theorem manifest_rewrite_witness :
    ∃ fs5,
      uptoManifest (sampleWorld sampleManifest [] node18) "foo" (some sampleUrl) sampleDisk
          = some ([.probeLockfile, .probeBinary,
                   .stdout "git项目模版： https://example.org/template.git",
                   .mkdir ["home", "dev", "foo"],
                   .rm ["opt", "tool", "src", "template"],
                   .mkdir ["opt", "tool", "src", "template"],
                   .exec "git clone https://example.org/template.git /opt/tool/src/template"
                     ["home", "dev", "foo"],
                   .copy ["opt", "tool", "src", "template"] ["home", "dev", "foo"],
                   .readFile ["home", "dev", "foo", "package.json"],
                   .writeFile ["home", "dev", "foo", "package.json"]
                     "\x7b\n  \"name\": \"foo\",\n  \"version\": \"1.0.0\",\n  \"port\": 3000\n\x7d"],
                  fs5) ∧
        readFileSync fs5 ["home", "dev", "foo", "package.json"]
          = .ok "\x7b\n  \"name\": \"foo\",\n  \"version\": \"1.0.0\",\n  \"port\": 3000\n\x7d" ∧
        statSync fs5 ["home", "dev", "foo", "index.js"] = some (.file "main()") := by
  obtain ⟨fs5, h1, h2, h3, -, -, -⟩ :=
    manifest_rewrite (sampleWorld sampleManifest [] node18) "foo" (some sampleUrl) sampleDisk
      _ _ sampleManifest
      [(toUnits "name", .str (toUnits "template")), (toUnits "version", .str (toUnits "1.0.0")),
       (toUnits "port", .num "3000")]
      (by rfl) (by rfl) (by rfl) (by decide)
  have hs : stringify (.obj (renamed
      [(toUnits "name", .str (toUnits "template")), (toUnits "version", .str (toUnits "1.0.0")),
       (toUnits "port", .num "3000")] "foo"))
      = "\x7b\n  \"name\": \"foo\",\n  \"version\": \"1.0.0\",\n  \"port\": 3000\n\x7d" := by
    decide
  rw [hs] at h1 h2
  exact ⟨fs5, h1, h2, (h3 ["home", "dev", "foo", "index.js"] (by decide)).trans (by decide)⟩

/-- C2 fails as stated: three manifests that parse as a JSON object, each
rewritten to a text that is not the serialisation of any object made of the
fields of the manifest, in their order, and a name field, wherever that field
is put.  In `{"b":1,"1":2}` the key `1` is an array index and moves before `b`;
in `{"a":1,"b":2,"a":3}` the key `a` occurs twice and is written once, with
its last value; in `{"x":{"b":1,"1":2}}` the keys of the nested object change
places. -/
theorem manifest_rewrite_reorders :
    (parseDocument indexedManifest
        = some (.obj [(toUnits "b", .num "1"), (toUnits "1", .num "2")]) ∧
      (uptoManifest (sampleWorld indexedManifest [] node18) "foo" (some sampleUrl) sampleDisk).map
          (fun pr => readFileSync pr.2 ["home", "dev", "foo", "package.json"])
        = some (.ok "\x7b\n  \"1\": 2,\n  \"b\": 1,\n  \"name\": \"foo\"\n\x7d") ∧
      "\x7b\n  \"1\": 2,\n  \"b\": 1,\n  \"name\": \"foo\"\n\x7d" ∉
        (insertions (toUnits "name", .str (toUnits "foo"))
          (withoutKey (toUnits "name")
            [(toUnits "b", .num "1"), (toUnits "1", .num "2")])).map
          (fun ms => stringify (.obj ms))) ∧
    (parseDocument repeatedManifest
        = some (.obj [(toUnits "a", .num "1"), (toUnits "b", .num "2"),
                      (toUnits "a", .num "3")]) ∧
      (uptoManifest (sampleWorld repeatedManifest [] node18) "foo" (some sampleUrl)
          sampleDisk).map
          (fun pr => readFileSync pr.2 ["home", "dev", "foo", "package.json"])
        = some (.ok "\x7b\n  \"a\": 3,\n  \"b\": 2,\n  \"name\": \"foo\"\n\x7d") ∧
      "\x7b\n  \"a\": 3,\n  \"b\": 2,\n  \"name\": \"foo\"\n\x7d" ∉
        (insertions (toUnits "name", .str (toUnits "foo"))
          (withoutKey (toUnits "name")
            [(toUnits "a", .num "1"), (toUnits "b", .num "2"), (toUnits "a", .num "3")])).map
          (fun ms => stringify (.obj ms))) ∧
    (parseDocument nestedManifest
        = some (.obj [(toUnits "x",
            .obj [(toUnits "b", .num "1"), (toUnits "1", .num "2")])]) ∧
      (uptoManifest (sampleWorld nestedManifest [] node18) "foo" (some sampleUrl) sampleDisk).map
          (fun pr => readFileSync pr.2 ["home", "dev", "foo", "package.json"])
        = some (.ok
            "\x7b\n  \"x\": \x7b\n    \"1\": 2,\n    \"b\": 1\n  \x7d,\n  \"name\": \"foo\"\n\x7d") ∧
      "\x7b\n  \"x\": \x7b\n    \"1\": 2,\n    \"b\": 1\n  \x7d,\n  \"name\": \"foo\"\n\x7d" ∉
        (insertions (toUnits "name", .str (toUnits "foo"))
          (withoutKey (toUnits "name")
            [(toUnits "x", .obj [(toUnits "b", .num "1"), (toUnits "1", .num "2")])])).map
          (fun ms => stringify (.obj ms))) := by
  refine ⟨⟨?_, ?_, ?_⟩, ⟨?_, ?_, ?_⟩, ⟨?_, ?_, ?_⟩⟩
  · rfl
  · rfl
  · decide
  · rfl
  · rfl
  · decide
  · rfl
  · rfl
  · decide

end CreateNodeApp
